import Mathlib

/-!
Verification development for the ocean-freight-optimizer repository.

The definitions below are shallow embeddings of the Python sources:

* `src/data_processor.py` — the rate combiner (`add_ocean_rates`,
  `add_total_rates`, `add_cost_ranking`);
* `src/api_server.py` (`get_hapag_route`) — the charge-row parser with
  landfreight sub-option grouping;
* `src/url_checker_package/destination_selector.py` — destination
  resolution (`select_destination`, `_calculate_match_score`);
* `src/hapag_checker.py` / `src/hapag_module/data_extractor.py` — the
  surcharge-table extractor and the Excel export column mapping.

Machine-level conventions: pandas `NaN` cells are modelled as `none`
(`Option`), numeric cells as `ℤ`
(an ordered-field stand-in for the floats `pd.to_numeric(errors='coerce')`
yields — every claim here is order-theoretic; `none` is a missing or
non-numeric cell), and Python
strings as `String` (ASCII case mapping, as all inputs of interest are
ASCII).
-/

/-! ### Python string primitives -/

/-- Membership of one character list inside another, i.e. Python's
substring test `needle in hay` on the underlying characters. -/
def strContainsList (needle : List Char) : List Char → Bool
  | [] => needle.isEmpty
  | c :: rest => needle.isPrefixOf (c :: rest) || strContainsList needle rest

/-- Python's `needle in hay` substring operator. -/
def pyIn (needle hay : String) : Bool :=
  strContainsList needle.data hay.data

/-- Worker for Python's no-argument `str.split()`: collect maximal
whitespace-free runs (`acc` is the current run, reversed). -/
def wsTokensGo (acc : List Char) : List Char → List (List Char)
  | [] => if acc.isEmpty then [] else [acc.reverse]
  | c :: rest =>
    if c.isWhitespace then
      if acc.isEmpty then wsTokensGo [] rest
      else acc.reverse :: wsTokensGo [] rest
    else wsTokensGo (c :: acc) rest

/-- Python's no-argument `str.split()` — split on whitespace runs,
dropping empty fields. -/
def pySplitWS (s : String) : List String :=
  (wsTokensGo [] s.data).map String.mk

/-- Python's `str.strip()`. -/
def pyStrip (s : String) : String :=
  String.mk (((s.data.dropWhile Char.isWhitespace).reverse.dropWhile
    Char.isWhitespace).reverse)

/-- Python's `str.upper()` (ASCII). -/
def pyUpper (s : String) : String :=
  String.mk (s.data.map Char.toUpper)

/-- Python's `str.lower()` (ASCII). -/
def pyLower (s : String) : String :=
  String.mk (s.data.map Char.toLower)

/-- Python's `str.split(sep)` for a one-character separator: empty fields
are kept, and the empty string yields `[""]`. -/
def splitOnCharList (sep : Char) : List Char → List (List Char)
  | [] => [[]]
  | c :: rest =>
    if c = sep then [] :: splitOnCharList sep rest
    else
      match splitOnCharList sep rest with
      | [] => [[c]]
      | h :: t => (c :: h) :: t

/-- `str.split(sep)` on strings. -/
def pySplitChar (sep : Char) (s : String) : List String :=
  (splitOnCharList sep s.data).map String.mk

/-- Python's `str.replace(a, b)` for one-character arguments. -/
def pyReplaceChar (a b : Char) (s : String) : String :=
  String.mk (s.data.map (fun c => if c = a then b else c))

/-- Python's slice `s[:n]`. -/
def pyTake (n : ℕ) (s : String) : String :=
  String.mk (s.data.take n)

/-- Python's `str.startswith`. -/
def pyStartsWith (s pre : String) : Bool :=
  pre.data.isPrefixOf s.data

/-- The extractors' `norm`: `re.sub(r"\s+", " ", s.strip())` — collapse
whitespace runs to single spaces after stripping the ends. -/
def pyNorm (s : String) : String :=
  String.intercalate " " (pySplitWS s)

/-! ### RateCombiner (`src/data_processor.py`)

An inland-rate row carries the columns used by the combination run.
`rate` is the numeric value of the `Rate` cell after pandas coercion
(`none` when missing or non-numeric); `containerType` is `none` when the
`Container Type & Size` cell is NaN. -/

structure InlandRow where
  pod : String
  containerType : Option String
  rate : Option ℤ
  destination : String
deriving Repr, DecidableEq

/-- One ocean-freight row: `POD`, `20 FT`, `40 FT`. -/
structure OceanRow where
  pod : String
  ft20 : Option ℤ
  ft40 : Option ℤ
deriving Repr, DecidableEq

/-- An inland row after `add_ocean_rates` attached the `Ocean Rate`
column. -/
structure OceanJoinedRow where
  pod : String
  containerType : Option String
  rate : Option ℤ
  destination : String
  oceanRate : Option ℤ
deriving Repr, DecidableEq

/-- A row after `add_total_rates` attached the `Total Rate` column. -/
structure TotalRow where
  pod : String
  containerType : Option String
  rate : Option ℤ
  destination : String
  oceanRate : Option ℤ
  totalRate : Option ℤ
deriving Repr, DecidableEq

/-- A row after `add_cost_ranking` attached `Cost Rank` and
`Total Routes`. -/
structure RankedRow where
  pod : String
  containerType : Option String
  rate : Option ℤ
  destination : String
  oceanRate : Option ℤ
  totalRate : Option ℤ
  costRank : ℕ
  totalRoutes : ℕ
deriving Repr, DecidableEq

/-- `add_ocean_rates`: build `ocean_lookup` keyed by POD (later rows
overwrite earlier ones, hence the reversed search), then attach the
matching `20 FT`/`40 FT` rate when the first two characters of the
container type are literally `"20"` or `"40"`; otherwise the ocean rate
is missing. -/
def add_ocean_rates (inland : List InlandRow) (ocean : List OceanRow) :
    List OceanJoinedRow :=
  inland.map (fun r =>
    let oce : Option ℤ :=
      match ocean.reverse.find? (fun o => o.pod = r.pod) with
      | none => none
      | some o =>
        match r.containerType with
        | none => none
        | some ct =>
          let cs := pyTake 2 ct
          if cs = "20" then o.ft20
          else if cs = "40" then o.ft40
          else none
    { pod := r.pod, containerType := r.containerType, rate := r.rate,
      destination := r.destination, oceanRate := oce })

/-- `add_total_rates`: `Total Rate = Rate + Ocean Rate`, with NaN
propagation (missing whenever either side is missing). -/
def add_total_rates (rows : List OceanJoinedRow) : List TotalRow :=
  rows.map (fun r =>
    { pod := r.pod, containerType := r.containerType, rate := r.rate,
      destination := r.destination, oceanRate := r.oceanRate,
      totalRate :=
        match r.rate, r.oceanRate with
        | some a, some b => some (a + b)
        | _, _ => none })

/-- The sort key of `df.sort_values(['Destination', 'Container Type & Size',
'Total Rate', 'POD'])`: lexicographic, with NaN cells placed last within
each key (pandas `na_position='last'`), encoded by a leading `isNone`
Boolean. -/
def rowKey (r : TotalRow) :
    Lex (List Char × Lex ((Lex (Bool × List Char)) ×
      Lex ((Lex (Bool × ℤ)) × List Char))) :=
  toLex (r.destination.data,
    toLex (toLex (r.containerType.isNone, (r.containerType.getD "").data),
      toLex (toLex (r.totalRate.isNone, r.totalRate.getD 0), r.pod.data)))

/-- Row comparison used for the 4-column sort. -/
def rowLe (a b : TotalRow) : Prop := rowKey a ≤ rowKey b

instance : DecidableRel rowLe :=
  fun a b => inferInstanceAs (Decidable (rowKey a ≤ rowKey b))

instance : IsTotal TotalRow rowLe := ⟨fun a b => le_total (rowKey a) (rowKey b)⟩

instance : IsTrans TotalRow rowLe := ⟨fun _ _ _ h h' => le_trans h h'⟩

/-- Rows belong to one ranking group when they agree on
`(Destination, Container Type & Size)`. -/
def sameGroup (a b : TotalRow) : Bool :=
  decide (a.destination = b.destination) &&
  decide (a.containerType = b.containerType)

/-- The `(Total Rate, row position)` pair `rank(method='first')` orders
by: smaller value first, ties broken by position in the frame. -/
def pairKey (p : ℕ × TotalRow) : Lex (ℤ × ℕ) :=
  toLex (p.2.totalRate.getD 0, p.1)

/-- The rank pandas `rank(method='first', ascending=True)` assigns inside
one group: one plus the number of group members whose
`(Total Rate, row position)` pair is lexicographically smaller. -/
def rankOfAt (s : List TotalRow) (i : ℕ) (r : TotalRow) : ℕ :=
  1 + s.enum.countP (fun q =>
    sameGroup q.2 r && decide (pairKey q < pairKey (i, r)))

/-- One output row of the ranking step: the row's own columns plus
`Cost Rank` (pandas `groupby(...).rank(method='first')`) and
`Total Routes` (`transform('count')`: non-missing `Total Rate` values in
the group). -/
def rankifyRow (s : List TotalRow) (p : ℕ × TotalRow) : RankedRow :=
  { pod := p.2.pod, containerType := p.2.containerType, rate := p.2.rate,
    destination := p.2.destination, oceanRate := p.2.oceanRate,
    totalRate := p.2.totalRate,
    costRank := rankOfAt s p.1 p.2,
    totalRoutes := s.countP (fun r2 => sameGroup r2 p.2 && r2.totalRate.isSome) }

/-- Attach rank and route count to every row of the already-sorted
frame. -/
def rankedRows (s : List TotalRow) : List RankedRow :=
  s.enum.map (rankifyRow s)

/-- `add_cost_ranking`: sort by `(Destination, Container Type & Size,
Total Rate, POD)`, rank with `method='first'`, then `.astype(int)` —
which raises `IntCastingNaNError` as soon as any rank is NaN, i.e. as
soon as any row has a missing group key or missing `Total Rate`. -/
def add_cost_ranking (rows : List TotalRow) : Except String (List RankedRow) :=
  let s := List.insertionSort rowLe rows
  if s.any (fun r => r.containerType.isNone || r.totalRate.isNone) then
    Except.error "IntCastingNaNError: cannot convert non-finite values to integer"
  else
    Except.ok (rankedRows s)

/-- The combination run of `process_inland_rates` restricted to its three
data-transforming stages. -/
def combine_rates (inland : List InlandRow) (ocean : List OceanRow) :
    Except String (List RankedRow) :=
  add_cost_ranking (add_total_rates (add_ocean_rates inland ocean))

example :
    add_cost_ranking
      [{ pod := "B", containerType := some "40HC", rate := some 500,
         destination := "PARIS", oceanRate := some 800, totalRate := some 1300 },
       { pod := "A", containerType := some "40HC", rate := some 600,
         destination := "PARIS", oceanRate := some 700, totalRate := some 1300 }] =
    Except.ok
      [{ pod := "A", containerType := some "40HC", rate := some 600,
         destination := "PARIS", oceanRate := some 700, totalRate := some 1300,
         costRank := 1, totalRoutes := 2 },
       { pod := "B", containerType := some "40HC", rate := some 500,
         destination := "PARIS", oceanRate := some 800, totalRate := some 1300,
         costRank := 2, totalRoutes := 2 }] := by rfl

example :
    combine_rates
      [{ pod := "BUSAN", containerType := some "40HC", rate := some 500,
         destination := "PARIS" }]
      [{ pod := "QINGDAO", ft20 := some 300, ft40 := some 800 }] =
    Except.error "IntCastingNaNError: cannot convert non-finite values to integer" := by
  rfl

/-! ### DestinationResolver
(`src/url_checker_package/destination_selector.py`)

Scores are the constants of `src/url_checker_package/config.py`. -/

def EXACT_MATCH_SCORE : ℤ := 1000
def NORMALIZED_MATCH_SCORE : ℤ := 900
def ALL_PARTS_MATCH_SCORE : ℤ := 800
def PARTIAL_MATCH_SCORE : ℤ := 600
def FIRST_WORD_MATCH_SCORE : ℤ := 400
def WEAK_MATCH_SCORE : ℤ := 200
def COUNTRY_BONUS_SCORE : ℤ := 50
def MINIMUM_CONFIDENCE_SCORE : ℤ := 800

/-- The delimiter class of `re.split(r"[,/()\-]| - ", option_text)`. -/
def headDelimChar (c : Char) : Bool :=
  c = ',' || c = '/' || c = '(' || c = ')' || c = '-'

/-- `re.split(r"[,/()\-]| - ", option_text)[0].strip()`.  Every `" - "`
occurrence contains a `'-'`, so after the final strip the first field is
exactly the text before the first delimiter character, stripped. -/
def headOf (s : String) : String :=
  pyStrip (String.mk (s.data.takeWhile (fun c => !headDelimChar c)))

/-- `[p.strip() for p in option_text.split(',')]`. -/
def optionPartsOf (s : String) : List String :=
  (pySplitChar ',' s).map pyStrip

/-- Python truthiness of the optional `region` argument (`None` and `""`
are both falsy). -/
def regionTruthy : Option String → Bool
  | none => false
  | some r => r ≠ ""

/-- The doubled-city special case at the top of
`_calculate_match_score`: the label has at least 3 comma parts, the
first two are equal (case-insensitively), both equal the queried city,
and the country appears in the label.  The source writes this as two
nested `if`s and returns `1100` immediately. -/
def specialCaseFires (city country ot : String) : Bool :=
  let option_parts := optionPartsOf ot
  decide (3 ≤ option_parts.length) &&
  decide (pyUpper (option_parts.getD 0 "") = pyUpper (option_parts.getD 1 "")) &&
  decide (pyUpper city = pyUpper (option_parts.getD 0 "")) &&
  pyIn (pyUpper country) ot

/-- The six-tier cascade of `_calculate_match_score` below the special
case: exact head match 1000, normalized-start 900, all city tokens
present 800 (in order) / 600 (present), first token as a whole word 400,
first 4 characters as a substring 200, otherwise 0. -/
def tierScore (city cn : String) (cp : List String) (ot onn : String) : ℤ :=
  if pyUpper city = headOf ot then EXACT_MATCH_SCORE
  else if pyStartsWith onn (cn ++ ",") || pyStartsWith onn (cn ++ " -") ||
      pyStartsWith onn (cn ++ " /") then
    NORMALIZED_MATCH_SCORE
  else if cp.all (fun part => pyIn part onn) then
    if pyIn cn onn then ALL_PARTS_MATCH_SCORE
    else PARTIAL_MATCH_SCORE
  else if !cp.isEmpty && (pySplitWS onn).contains (cp.headD "") then
    FIRST_WORD_MATCH_SCORE
  else if !cp.isEmpty && pyIn (pyTake 4 (cp.headD "")) onn then
    WEAK_MATCH_SCORE
  else 0

/-- The country-bonus step of `_calculate_match_score`: `+50` when the
tier score is strictly positive and the country appears in the label. -/
def withCountryScore (city cn : String) (cp : List String)
    (country : String) (ot onn : String) : ℤ :=
  if tierScore city cn cp ot onn > 0 ∧ pyIn (pyUpper country) ot then
    tierScore city cn cp ot onn + COUNTRY_BONUS_SCORE
  else tierScore city cn cp ot onn

/-- The region block of `_calculate_match_score`, applied to the
already-bonused score `wc`: when a region was supplied and the label has
at least 3 comma parts, `+300` for an exact middle-part match and `−500`
for a different middle part of at most 3 characters; when no region was
supplied, `+10` for a plain two-part label. -/
def regionAdjusted (region : Option String) (ot : String) (wc : ℤ) : ℤ :=
  if regionTruthy region then
    if 3 ≤ (optionPartsOf ot).length then
      if pyStrip ((optionPartsOf ot).getD 1 "") = pyUpper (region.getD "") then
        wc + 300
      else if pyStrip ((optionPartsOf ot).getD 1 "") ≠ pyUpper (region.getD "") ∧
          (pyStrip ((optionPartsOf ot).getD 1 "")).length ≤ 3 then
        wc - 500
      else wc
    else wc
  else
    if (optionPartsOf ot).length = 2 then wc + 10
    else wc

/-- `_calculate_match_score`.  `ot` is the upper-cased label and `onn`
the same with hyphens replaced by spaces, exactly as the caller passes
them: the doubled-city special case returns `1100` at once; otherwise
the tier cascade is followed by the country bonus and the
region/two-part adjustments. -/
def calculate_match_score (city cn : String) (cp : List String)
    (country : String) (region : Option String) (ot onn : String) : ℤ :=
  if specialCaseFires city country ot then EXACT_MATCH_SCORE + 100
  else regionAdjusted region ot (withCountryScore city cn cp country ot onn)

/-- The tier cascade of `_calculate_match_score` on its own, before the
country/region/simple-format adjustments (the doubled-city special case
returns `1100` directly). -/
def matchBaseScore (city cn : String) (cp : List String)
    (country : String) (ot onn : String) : ℤ :=
  if specialCaseFires city country ot then EXACT_MATCH_SCORE + 100
  else tierScore city cn cp ot onn

/-- The per-option score as `select_destination` computes it: upper-case
the label, normalize hyphens, and call the scoring function with the
pre-computed `city_normalized`/`city_parts`. -/
def scoreOption (city country : String) (region : Option String)
    (optionText : String) : ℤ :=
  let city_normalized := pyStrip (pyReplaceChar '-' ' ' (pyUpper city))
  let city_parts := pySplitWS city_normalized
  let option_text_upper := pyUpper optionText
  let option_normalized := pyReplaceChar '-' ' ' option_text_upper
  calculate_match_score city city_normalized city_parts country region
    option_text_upper option_normalized

/-- The base tier score as `select_destination` would feed it: the
companion of `scoreOption` for `matchBaseScore`. -/
def baseScoreOption (city country : String) (optionText : String) : ℤ :=
  let city_normalized := pyStrip (pyReplaceChar '-' ' ' (pyUpper city))
  let city_parts := pySplitWS city_normalized
  let option_text_upper := pyUpper optionText
  let option_normalized := pyReplaceChar '-' ' ' option_text_upper
  matchBaseScore city city_normalized city_parts country
    option_text_upper option_normalized

/-- The parsed destination query: `city`, `country` (last comma part),
and `region` (middle part, only when there are exactly three parts). -/
structure ParsedQuery where
  city : String
  country : String
  region : Option String
deriving Repr, DecidableEq

/-- The query parsing at the top of `select_destination`. -/
def parseDestination (name : String) : ParsedQuery :=
  let parts := (pySplitChar ',' name).map pyStrip
  if 2 ≤ parts.length then
    { city := parts.headD "", country := parts.getLastD "",
      region := if parts.length = 3 then some (parts.getD 1 "") else none }
  else
    { city := name, country := name, region := none }

/-- The structured outcome of one resolution, following §3 of the spec.
The two selection branches of the source (score at or below
`MINIMUM_CONFIDENCE_SCORE`) return the same verification dictionary, so
they collapse to the same constructors here; browser-level click
failures are external I/O and out of scope. -/
inductive Outcome where
  | noRatesAvailable
  | wrongCountryRejected
  | selectedOk (label : String)
  | selectedWithMismatch (label : String)
  | noValidOptions
  | noReadableOptions
deriving Repr, DecidableEq

/-- A dropdown entry is flagged unavailable when it carries the
`"(No rates available)"` marker.  The source tests
`"(No rates available)" in text or "(no rates available)" in
text.lower()`; the first disjunct is subsumed by the second. -/
def isUnavailableOption (text : String) : Bool :=
  pyIn "(no rates available)" (pyLower text)

/-- The option texts the DOM scan keeps: first 20 elements, stripped,
ignoring empty and single-character texts (`if text and len(text) > 1`). -/
def cleanedOptions (options : List String) : List String :=
  ((options.take 20).map pyStrip).filter (fun t => 2 ≤ t.length)

/-- Options not flagged unavailable (`all_dropdown_options`). -/
def availableOptions (options : List String) : List String :=
  (cleanedOptions options).filter (fun t => !isUnavailableOption t)

/-- Options flagged unavailable (`unavailable_options`). -/
def unavailableOptions (options : List String) : List String :=
  (cleanedOptions options).filter isUnavailableOption

/-- The best-match scan: fold over the options keeping the first
strictly-improving score, starting from `best_score = 0` with no
option. -/
def scanBest (score : String → ℤ) (opts : List String) :
    Option String × ℤ :=
  opts.foldl (fun acc t => if score t > acc.2 then (some t, score t) else acc)
    (none, 0)

/-- `_verify_destination_selection` (its pure decision: do city, region
and country all appear in the selected label).  Python would raise an
`IndexError` for a whitespace-only multi-word `city`; the `headD ""`
below makes that degenerate corner total instead (no claim depends on
it). -/
def verifySelection (city : String) (region : Option String)
    (country : String) (selected_text : String) : Bool :=
  let city_normalized := pyReplaceChar '-' ' ' (pyUpper city)
  let selected_normalized := pyReplaceChar '-' ' ' (pyUpper selected_text)
  let city_first_word :=
    if pyIn " " city || pyIn "-" city then pyUpper ((pySplitWS city).headD "")
    else pyUpper city
  let city_matches := pyIn (pyUpper city) selected_text ||
    pyIn city_normalized selected_normalized ||
    pyIn city_first_word selected_text
  let region_matches :=
    if regionTruthy region then pyIn (pyUpper (region.getD "")) selected_text
    else true
  let country_matches := pyIn (pyUpper country) selected_text
  city_matches && region_matches && country_matches

/-- The tail of `select_destination` once the best match is known:
no best (nothing ever beat score 0) means no valid options; otherwise a
specified country absent from the best label is rejected, and otherwise
the selection is committed and verified. -/
def selectFromBest (q : ParsedQuery) (best : Option String) : Outcome :=
  match best with
  | none => Outcome.noValidOptions
  | some t =>
    if q.country ≠ "" ∧ (!pyIn (pyUpper q.country) (pyUpper t)) = true then
      Outcome.wrongCountryRejected
    else if verifySelection q.city q.region q.country t then
      Outcome.selectedOk t
    else Outcome.selectedWithMismatch t

/-- `select_destination` over a materialized candidate list (the DOM
path of the source; the keyboard fallback only runs when no option text
could be read at all, which here is the empty-candidate case). -/
def select_destination (destination_name : String) (options : List String) :
    Outcome :=
  let q := parseDestination destination_name
  let avail := availableOptions options
  let unavail := unavailableOptions options
  if unavail ≠ [] ∧ avail = [] then Outcome.noRatesAvailable
  else if avail = [] then Outcome.noReadableOptions
  else
    selectFromBest q
      (scanBest (scoreOption q.city q.country q.region) avail).1

example : scoreOption "PARIS" "FRANCE" none "PARIS, GERMANY" = 1010 := by rfl

example : scoreOption "PARIS" "FRANCE" none "LYON, FRANCE" = 10 := by rfl

example :
    select_destination "PARIS, FRANCE" ["PARIS, GERMANY", "LYON, FRANCE"] =
      Outcome.wrongCountryRejected := by rfl

example :
    select_destination "PARIS, FRANCE"
      ["PARIS, FRANCE (No rates available)", "LYON, FRANCE (No rates available)"] =
      Outcome.noRatesAvailable := by rfl

example :
    scoreOption "MUENSTER" "GERMANY" (some "NW") "MUENSTER, BB, GERMANY" = 550 := by rfl

example :
    scoreOption "MUENSTER" "GERMANY" (some "NW") "MUENSTER, GERMANY" = 1050 := by rfl

example : matchBaseScore "PARIS"
    (pyStrip (pyReplaceChar '-' ' ' (pyUpper "PARIS")))
    (pySplitWS (pyStrip (pyReplaceChar '-' ' ' (pyUpper "PARIS"))))
    "FRANCE" (pyUpper "BERLIN, GERMANY")
    (pyReplaceChar '-' ' ' (pyUpper "BERLIN, GERMANY")) = 0 := by rfl

/-! ### SurchargeTableParser — serving side
(`get_hapag_route` in `src/api_server.py`)

One grid row carries the `Description`, `Curr.`, `20STD`, `40STD` and
`40HC` cells of the HAPAG sheet; a NaN or empty cell is the empty
string, matching the source's uniform
`str(x) if pd.notna(x) and x != '' else ''` reading. -/

structure HapagRow where
  desc : String
  curr : String
  v20 : String
  v40 : String
  v40hc : String
deriving Repr, DecidableEq

/-- One absorbed sub-option (`description` plus per-column amounts,
missing amounts defaulting to `"-"`). -/
structure SubOption where
  description : String
  value20 : String
  value40 : String
  value40HC : String
deriving Repr, DecidableEq

/-- One charge record of the route payload.  Leaf records have
`subOptions = []` (the source simply omits the key). -/
structure ChargeItem where
  description : String
  curr : String
  value20STD : String
  value40STD : String
  value40HC : String
  subOptions : List SubOption
deriving Repr, DecidableEq

/-- The charge part of the `get_hapag_route` response. -/
structure HapagRoute where
  oceanFreight : Option ChargeItem
  destinationLandfreight : Option ChargeItem
  otherCharges : List ChargeItem
deriving Repr, DecidableEq

/-- Build a (leaf) charge item from a row. -/
def mkItem (r : HapagRow) : ChargeItem :=
  { description := r.desc, curr := r.curr, value20STD := r.v20,
    value40STD := r.v40, value40HC := r.v40hc, subOptions := [] }

/-- Build a sub-option from a row (`"-"` for missing amounts). -/
def mkSubOption (r : HapagRow) : SubOption :=
  { description := r.desc,
    value20 := if r.v20 = "" then "-" else r.v20,
    value40 := if r.v40 = "" then "-" else r.v40,
    value40HC := if r.v40hc = "" then "-" else r.v40hc }

/-- `'ocean freight' in desc.lower()`. -/
def oceanKw (desc : String) : Bool :=
  pyIn "ocean freight" (pyLower desc)

/-- `'destination landfreight' in desc.lower() or 'landfreight' in
desc.lower()` (the first disjunct is subsumed by the second but kept as
written). -/
def landfreightKw (desc : String) : Bool :=
  pyIn "destination landfreight" (pyLower desc) ||
  pyIn "landfreight" (pyLower desc)

/-- The sub-option absorption test of the scan loop: the row must have a
non-empty currency cell (the loop `break`s on an empty one) and its
description's first word must be one of
`combined/between/from/</>` or the description must contain a
semicolon. -/
def subOptionOK (r : HapagRow) : Bool :=
  r.curr ≠ "" &&
  (let fw := pyLower ((pySplitWS r.desc).headD "")
   decide (fw = "combined") || decide (fw = "between") ||
   decide (fw = "from") || decide (fw = "<") || decide (fw = ">") ||
   pyIn ";" r.desc)

/-- The row loop of `get_hapag_route`.  The first argument counts rows
already consumed by a landfreight group's sub-option scan (the source
advances the shared index `i` past them); later `ocean_freight` /
`destination_landfreight` assignments overwrite earlier ones, hence the
`<|>` with the recursive result first. -/
def processHapagRows : ℕ → List HapagRow → HapagRoute
  | _, [] => { oceanFreight := none, destinationLandfreight := none,
               otherCharges := [] }
  | k + 1, _ :: rest => processHapagRows k rest
  | 0, r :: rest =>
    if oceanKw r.desc then
      let res := processHapagRows 0 rest
      { res with oceanFreight := res.oceanFreight <|> some (mkItem r) }
    else if landfreightKw r.desc then
      if r.curr = "" then
        let absorbed := rest.takeWhile subOptionOK
        let subs := absorbed.map mkSubOption
        let item0 := mkItem r
        let item :=
          if subs.isEmpty then item0
          else
            let lastCurr := (absorbed.getLast?).elim "" (fun a => a.curr)
            { item0 with
              subOptions := subs,
              curr := if lastCurr ≠ "" then lastCurr else item0.curr }
        let res := processHapagRows absorbed.length rest
        { res with destinationLandfreight :=
            res.destinationLandfreight <|> some item }
      else
        let res := processHapagRows 0 rest
        { res with destinationLandfreight :=
            res.destinationLandfreight <|> some (mkItem r) }
    else if r.curr ≠ "" then
      let res := processHapagRows 0 rest
      { res with otherCharges := mkItem r :: res.otherCharges }
    else
      processHapagRows 0 rest

/-- The charge-classification part of `get_hapag_route` over the rows of
one destination. -/
def get_hapag_route_charges (rows : List HapagRow) : HapagRoute :=
  processHapagRows 0 rows

example :
    get_hapag_route_charges
      [{ desc := "Destination Landfreight", curr := "", v20 := "", v40 := "",
         v40hc := "" },
       { desc := "Combined transport by truck", curr := "EUR", v20 := "100",
         v40 := "", v40hc := "120" },
       { desc := "between Hamburg; by rail", curr := "USD", v20 := "90",
         v40 := "95", v40hc := "" }] =
    { oceanFreight := none,
      destinationLandfreight := some
        { description := "Destination Landfreight", curr := "USD",
          value20STD := "", value40STD := "", value40HC := "",
          subOptions :=
            [{ description := "Combined transport by truck", value20 := "100",
               value40 := "-", value40HC := "120" },
             { description := "between Hamburg; by rail", value20 := "90",
               value40 := "95", value40HC := "-" }] },
      otherCharges := [] } := by rfl

example :
    get_hapag_route_charges
      [{ desc := "Destination Landfreight", curr := "", v20 := "", v40 := "",
         v40hc := "" },
       { desc := "Combined transport by truck", curr := "", v20 := "100",
         v40 := "", v40hc := "120" }] =
    { oceanFreight := none,
      destinationLandfreight := some
        { description := "Destination Landfreight", curr := "",
          value20STD := "", value40STD := "", value40HC := "",
          subOptions := [] },
      otherCharges := [] } := by rfl

/-! ### SurchargeTableParser — extraction side
(`extract_import_surcharges_table` in `src/hapag_checker.py`; the class
methods `DataExtractor._find_header_row` / `_extract_row_data` in
`src/hapag_module/data_extractor.py` implement the identical algorithm
and are covered by the same embedding)

A table is a ragged 2-D grid of cell texts, row-major. -/

/-- `split_first_cell`: first non-empty line is the description, the
remaining non-empty lines joined with one space are the remarks
(`str.splitlines` modelled on newline characters). -/
def split_first_cell (text : String) : String × String :=
  let lines := ((pySplitChar '\n' text).map pyStrip).filter (fun l => l ≠ "")
  match lines with
  | [] => ("", "")
  | [l] => (l, "")
  | l :: rest => (l, String.intercalate " " rest)

/-- The header scan: over the first 20 rows, skip rows with fewer than 3
cells, and return the normalized cell texts and index of the first row
containing `"Curr."` or `"Currency"`. -/
def findHeaderAux : ℕ → List (List String) → Option (List String × ℕ)
  | _, [] => none
  | i, row :: rest =>
    if 20 ≤ i then none
    else if row.length < 3 then findHeaderAux (i + 1) rest
    else
      let cellTexts := row.map pyNorm
      if cellTexts.any (fun t => decide (t = "Curr.") || decide (t = "Currency")) then
        some (cellTexts, i)
      else findHeaderAux (i + 1) rest

/-- Header map and header row index, with the fixed positional fallback
`{0: Description, 1: Curr., 2: 40STD, 3: 40HC}` when no header row is
found (`header_row_index` stays `-1`, i.e. `none`). -/
def headerInfo (grid : List (List String)) : List String × Option ℕ :=
  match findHeaderAux 0 grid with
  | some (m, i) => (m, some i)
  | none => (["Description", "Curr.", "40STD", "40HC"], none)

/-- `re.match(r'\d+[A-Z]+', col_name)`: the name starts with at least
one digit followed immediately by at least one uppercase letter. -/
def containerPat (s : String) : Bool :=
  match s.data with
  | [] => false
  | c :: _ =>
    c.isDigit &&
    (match (s.data.dropWhile Char.isDigit).head? with
     | some d => d.isUpper
     | none => false)

/-- The container-amount columns, in ascending column order (the source
iterates `sorted(container_columns.items())` and dict insertion order is
already ascending). -/
def containerColumnsOf (m : List String) : List (ℕ × String) :=
  m.enum.filter (fun p => containerPat p.2)

/-- The currency column: first header whose label contains `"Curr"` or
equals `"Currency"`. -/
def currIdxOf (m : List String) : Option ℕ :=
  (m.enum.find? (fun p => pyIn "Curr" p.2 || decide (p.2 = "Currency"))).map
    (fun p => p.1)

/-- The structural labels whose rows are skipped (the empty description
is in the list, so every surviving row has a non-empty description). -/
def skipLabels : List String :=
  ["Import Surcharges", "Export Surcharges", "Description", "Curr.",
   "40STD", "40HC", "20STD", ""]

/-- One extracted charge record.  `has20stdColumn` is the table-global
flag `"20STD" in container_columns.values()` the extractor stores per
record. -/
structure SurchargeRecord where
  description : String
  curr : String
  containerValues : List (String × String)
  remarks : String
  has20stdColumn : Bool
deriving Repr, DecidableEq

/-- Extraction of one data row (`None` when the row is the header row,
has fewer than 3 cells, or carries a structural/banner description; the
source's trailing `if desc:` is subsumed because `"" ∈ skipLabels`). -/
def extractRowData (headerIdx : Option ℕ) (currIdx : Option ℕ)
    (cols : List (ℕ × String)) (i : ℕ) (row : List String) :
    Option SurchargeRecord :=
  if headerIdx = some i then none
  else if row.length < 3 then none
  else
    let p := split_first_cell (row.getD 0 "")
    if p.1 ∈ skipLabels then none
    else
      some
        { description := p.1,
          curr :=
            match currIdx with
            | some ci => if ci < row.length then pyNorm (row.getD ci "") else ""
            | none => "",
          containerValues :=
            (cols.filter (fun q => q.1 < row.length)).map
              (fun q => (q.2, pyNorm (row.getD q.1 ""))),
          remarks := p.2,
          has20stdColumn := cols.any (fun q => q.2 = "20STD") }

/-- `extract_import_surcharges_table` over a materialized grid. -/
def extract_import_surcharges_table (grid : List (List String)) :
    List SurchargeRecord :=
  let hi := headerInfo grid
  let cols := containerColumnsOf hi.1
  let ci := currIdxOf hi.1
  grid.enum.filterMap (fun p => extractRowData hi.2 ci cols p.1 p.2)

/-- `container_values.get(name, "")` — dict lookup where a later write
to a duplicate column label wins. -/
def dictGet (cv : List (String × String)) (name : String) : String :=
  ((cv.reverse.find? (fun q => decide (q.1 = name))).map (fun q => q.2)).getD ""

/-- The three amount cells `save_to_excel` writes for one record. -/
structure ExportedAmounts where
  val20std : String
  val40std : String
  val40hc : String
deriving Repr, DecidableEq

/-- The column mapping of `save_to_excel`: copy `40STD` into `20STD`
only when the source table had no `20STD` column at all and the `40STD`
value is non-empty (Python truthiness). -/
def save_to_excel_amounts (rec : SurchargeRecord) : ExportedAmounts :=
  let v20 := dictGet rec.containerValues "20STD"
  let v40 := dictGet rec.containerValues "40STD"
  let v40hc := dictGet rec.containerValues "40HC"
  { val20std := if !rec.has20stdColumn && v40 ≠ "" then v40 else v20,
    val40std := v40, val40hc := v40hc }

example :
    extract_import_surcharges_table
      [["Import Surcharges", "", ""],
       ["Description", "Curr.", "40STD", "40HC"],
       ["Ocean Freight\nper container", "USD", "120", "140"]] =
    [{ description := "Ocean Freight", curr := "USD",
       containerValues := [("40STD", "120"), ("40HC", "140")],
       remarks := "per container",
       has20stdColumn := false }] := by rfl

example :
    save_to_excel_amounts
      { description := "Ocean Freight", curr := "USD",
        containerValues := [("40STD", "120"), ("40HC", "140")],
        remarks := "", has20stdColumn := false } =
    { val20std := "120", val40std := "120", val40hc := "140" } := by rfl

/-- A fully matched three-row table: one `MARSEILLE` group of two
`40HC` rows tied on total rate and one `PARIS` row. -/
def c1Rows : List TotalRow :=
  [{ pod := "SHANGHAI", containerType := some "40HC", rate := some 500,
     destination := "MARSEILLE", oceanRate := some 800, totalRate := some 1300 },
   { pod := "BUSAN", containerType := some "40HC", rate := some 700,
     destination := "MARSEILLE", oceanRate := some 600, totalRate := some 1300 },
   { pod := "QINGDAO", containerType := some "20GP", rate := some 200,
     destination := "PARIS", oceanRate := some 300, totalRate := some 500 }]

/-! ## Theorems -/

/-! ### C2 — missing ocean/total rates (`RateCombiner`) -/

/-- Claim C2 (code evaluation at the failing input): an inland row whose
POD is absent from the ocean lookup is kept by `add_ocean_rates` with a
missing ocean rate, and likewise a row with an unresolvable
container-size prefix or a non-numeric rate propagates to a missing
total rate — but the combination run then *raises* in
`add_cost_ranking` (`astype(int)` on a NaN rank) instead of returning a
result. -/
theorem c2_missing_rate_crash :
    (add_ocean_rates
        [{ pod := "BUSAN", containerType := some "40HC", rate := some 500,
           destination := "PARIS" }]
        [{ pod := "QINGDAO", ft20 := some 300, ft40 := some 800 }] =
      [{ pod := "BUSAN", containerType := some "40HC", rate := some 500,
         destination := "PARIS", oceanRate := none }]) ∧
    (add_ocean_rates
        [{ pod := "BUSAN", containerType := some "45HC", rate := some 500,
           destination := "PARIS" }]
        [{ pod := "BUSAN", ft20 := some 300, ft40 := some 800 }] =
      [{ pod := "BUSAN", containerType := some "45HC", rate := some 500,
         destination := "PARIS", oceanRate := none }]) ∧
    (add_total_rates
        [{ pod := "BUSAN", containerType := some "40HC", rate := none,
           destination := "PARIS", oceanRate := some 800 }] =
      [{ pod := "BUSAN", containerType := some "40HC", rate := none,
         destination := "PARIS", oceanRate := some 800, totalRate := none }]) ∧
    (combine_rates
        [{ pod := "BUSAN", containerType := some "40HC", rate := some 500,
           destination := "PARIS" }]
        [{ pod := "QINGDAO", ft20 := some 300, ft40 := some 800 }] =
      Except.error
        "IntCastingNaNError: cannot convert non-finite values to integer") :=
  ⟨rfl, rfl, rfl, rfl⟩

/-! ### C1 — dense cost ranks (`RateCombiner`) -/

/-- Claim C1 (counterexample): the claim quantifies over *every* input
table, but on a table containing a row with a missing total rate (here:
an unmatched POD) the ranking step raises instead of producing the dense
ranks `{1,...,K}` for the `K = 1` group. -/
theorem c1_counterexample :
    combine_rates
      [{ pod := "BUSAN", containerType := some "40HC", rate := some 500,
         destination := "PARIS" }]
      [{ pod := "QINGDAO", ft20 := some 300, ft40 := some 800 }] =
    Except.error
      "IntCastingNaNError: cannot convert non-finite values to integer" := rfl

/-! ### C6 — all candidates unavailable -/

/-- The needle of a successful substring test is no longer than the
haystack. -/
theorem strContainsList_length_le (needle : List Char) :
    ∀ hay : List Char, strContainsList needle hay = true →
      needle.length ≤ hay.length := by
  intro hay
  induction hay with
  | nil =>
    intro h
    simp [strContainsList, List.isEmpty_iff] at h
    simp [h]
  | cons c rest ih =>
    intro h
    have h' : needle <+: c :: rest ∨ strContainsList needle rest = true := by
      simpa [strContainsList] using h
    rcases h' with h1 | h2
    · exact h1.length_le
    · exact le_trans (ih h2) (by simp)

/-- An option flagged with the availability marker has stripped length
at least 2, so the DOM scan keeps it. -/
theorem length_of_unavailable {t : String} (h : isUnavailableOption t = true) :
    2 ≤ t.length := by
  have h2 := strContainsList_length_le _ _ h
  have hlen : (pyLower t).data.length = t.data.length := by
    simp [pyLower]
  have h20 : (20 : ℕ) ≤ t.data.length := by
    rw [← hlen]
    exact h2
  show 2 ≤ t.data.length
  exact le_trans (by norm_num) h20

/-- Claim C6: for every non-empty candidate set in which every candidate
carries the "no rates available" marker, the resolver returns exactly
`NoRatesAvailable` — it never reaches country rejection, scoring, or
selection. -/
theorem c6_all_unavailable_no_rates (name : String) (options : List String)
    (hne : options ≠ [])
    (hall : ∀ o ∈ options, isUnavailableOption (pyStrip o) = true) :
    select_destination name options = Outcome.noRatesAvailable := by
  have hclean : cleanedOptions options = (options.take 20).map pyStrip := by
    unfold cleanedOptions
    apply List.filter_eq_self.mpr
    intro t ht
    obtain ⟨o, ho, rfl⟩ := List.mem_map.mp ht
    exact decide_eq_true (length_of_unavailable (hall o (List.mem_of_mem_take ho)))
  have havail : availableOptions options = [] := by
    unfold availableOptions
    rw [hclean]
    apply List.filter_eq_nil_iff.mpr
    intro t ht
    obtain ⟨o, ho, rfl⟩ := List.mem_map.mp ht
    simp [hall o (List.mem_of_mem_take ho)]
  have hunav : unavailableOptions options ≠ [] := by
    unfold unavailableOptions
    rw [hclean]
    have : options.take 20 ≠ [] := by
      cases options with
      | nil => exact absurd rfl hne
      | cons a l => simp
    cases htk : options.take 20 with
    | nil => exact absurd htk this
    | cons a l =>
      have ha : isUnavailableOption (pyStrip a) = true :=
        hall a (List.mem_of_mem_take (htk ▸ List.mem_cons_self a l))
      simp [htk, ha]
  unfold select_destination
  rw [if_pos ⟨hunav, havail⟩]

/-- Witness for C6 at a concrete query and candidate list. -/
theorem c6_witness :
    select_destination "PARIS, FRANCE"
      ["BUSAN, KOREA (No rates available)", "PARIS, FRANCE (No rates available)"] =
    Outcome.noRatesAvailable :=
  c6_all_unavailable_no_rates _ _ (by decide) (by decide)

/-! ### C8 — adjustments at base score zero -/

/-- Claim C8 (counterexample): for the query "PARIS, FRANCE" (no
region), the candidate "BERLIN, GERMANY" has base tier score 0, yet the
final score is 10, because the plain two-part-format bonus is *not*
gated on a positive base score (only the country bonus is). -/
theorem c8_counterexample :
    baseScoreOption "PARIS" "FRANCE" "BERLIN, GERMANY" = 0 ∧
    scoreOption "PARIS" "FRANCE" none "BERLIN, GERMANY" = 10 ∧
    scoreOption "PARIS" "FRANCE" none "BERLIN, GERMANY" ≠ 0 :=
  ⟨rfl, rfl, by decide⟩

set_option maxHeartbeats 2000000 in
/-- Core of the amended C8: when the base cascade yields 0 and neither
region adjustment nor the two-part bonus fires (label shape side
conditions), the final score is exactly 0; in particular the country
bonus alone is gated on a positive base. -/
theorem calculate_eq_of_base_zero (city cn : String) (cp : List String)
    (country : String) (region : Option String) (ot onn : String)
    (hb : matchBaseScore city cn cp country ot onn = 0)
    (hreg : regionTruthy region = true → (optionPartsOf ot).length < 3)
    (hnoreg : regionTruthy region = false → (optionPartsOf ot).length ≠ 2) :
    calculate_match_score city cn cp country region ot onn = 0 := by
  unfold matchBaseScore at hb
  unfold calculate_match_score
  by_cases hsc : specialCaseFires city country ot = true
  · rw [if_pos hsc] at hb
    norm_num [EXACT_MATCH_SCORE] at hb
  · rw [if_neg hsc] at hb
    rw [if_neg hsc]
    have hwc : withCountryScore city cn cp country ot onn = 0 := by
      unfold withCountryScore
      rw [hb]
      norm_num
    rw [hwc]
    unfold regionAdjusted
    by_cases hrt : regionTruthy region = true
    · have h3 := hreg hrt
      rw [if_pos hrt, if_neg (by omega : ¬ (3:ℕ) ≤ (optionPartsOf ot).length)]
    · have hf : regionTruthy region = false := by
        revert hrt
        cases regionTruthy region <;> simp
      have h2 := hnoreg hf
      rw [if_neg hrt, if_neg h2]

/-- Claim C8, amended: the `+50` country bonus is applied only when the
base score is strictly positive, so a base-0 candidate whose label shape
triggers neither the region adjustments (`<3` comma parts when a region
was supplied) nor the two-part bonus (`≠2` comma parts when none was)
scores exactly 0; the region `±300/−500` adjustments and the `+10`
two-part bonus, however, are applied even at base 0 (see the
counterexample). -/
theorem c8_amended (city country : String) (region : Option String)
    (optionText : String)
    (hbase : baseScoreOption city country optionText = 0)
    (hreg : regionTruthy region = true →
      (optionPartsOf (pyUpper optionText)).length < 3)
    (hnoreg : regionTruthy region = false →
      (optionPartsOf (pyUpper optionText)).length ≠ 2) :
    scoreOption city country region optionText = 0 := by
  unfold scoreOption
  unfold baseScoreOption at hbase
  exact calculate_eq_of_base_zero _ _ _ _ _ _ _ hbase hreg hnoreg

/-- Witness for the amended C8 at a concrete base-0 candidate. -/
theorem c8_witness :
    baseScoreOption "PARIS" "FRANCE" "ATLANTIC DEPOT" = 0 ∧
    scoreOption "PARIS" "FRANCE" none "ATLANTIC DEPOT" = 0 :=
  ⟨by decide, c8_amended "PARIS" "FRANCE" none "ATLANTIC DEPOT" (by decide)
    (by decide) (by decide)⟩

/-! ### C5 — wrong-country rejection -/

/-- Claim C5 (counterexample): for the query "PARIS, FRANCE" the
candidate list contains the available option "LYON, FRANCE" whose label
contains the country, yet the resolver returns `WrongCountryRejected`,
because the rejection check inspects only the best-scoring candidate
("PARIS, GERMANY", score 1010) and not the rest of the set. -/
theorem c5_counterexample :
    "LYON, FRANCE" ∈ availableOptions ["PARIS, GERMANY", "LYON, FRANCE"] ∧
    pyIn (pyUpper (parseDestination "PARIS, FRANCE").country)
      (pyUpper "LYON, FRANCE") = true ∧
    select_destination "PARIS, FRANCE" ["PARIS, GERMANY", "LYON, FRANCE"] =
      Outcome.wrongCountryRejected :=
  ⟨by decide, rfl, rfl⟩

/-- Invariant of the best-match fold: the running best score never
decreases, bounds every scanned score from above, and the final state is
either the initial one or `(some b, score b)` for some scanned `b`. -/
theorem scanFold_spec (score : String → ℤ) :
    ∀ (opts : List String) (acc : Option String × ℤ),
      acc.2 ≤ (opts.foldl
        (fun a t => if score t > a.2 then (some t, score t) else a) acc).2 ∧
      (∀ u ∈ opts, score u ≤ (opts.foldl
        (fun a t => if score t > a.2 then (some t, score t) else a) acc).2) ∧
      ((opts.foldl
          (fun a t => if score t > a.2 then (some t, score t) else a) acc) = acc ∨
        ∃ b ∈ opts, (opts.foldl
          (fun a t => if score t > a.2 then (some t, score t) else a) acc) =
            (some b, score b)) := by
  intro opts
  induction opts with
  | nil =>
    intro acc
    exact ⟨le_refl _, by simp, Or.inl rfl⟩
  | cons t rest ih =>
    intro acc
    simp only [List.foldl_cons]
    obtain ⟨ihmono, ihbound, ihlast⟩ :=
      ih (if score t > acc.2 then (some t, score t) else acc)
    refine ⟨le_trans ?_ ihmono, ?_, ?_⟩
    · by_cases h : score t > acc.2
      · rw [if_pos h]
        exact le_of_lt h
      · rw [if_neg h]
    · intro u hu
      rcases List.mem_cons.mp hu with rfl | hu'
      · refine le_trans ?_ ihmono
        by_cases h : score u > acc.2
        · rw [if_pos h]
        · rw [if_neg h]
          exact le_of_not_lt h
      · exact ihbound u hu'
    · rcases ihlast with heq | ⟨b, hb, hres⟩
      · rw [heq]
        by_cases h : score t > acc.2
        · rw [if_pos h]
          exact Or.inr ⟨t, List.mem_cons_self t rest, rfl⟩
        · rw [if_neg h]
          exact Or.inl rfl
      · exact Or.inr ⟨b, List.mem_cons_of_mem t hb, hres⟩

/-- Specification of `scanBest` when it returns a candidate: the
candidate was scanned, its score is the reported one, and reported score
bounds every scanned candidate's score. -/
theorem scanBest_some (score : String → ℤ) (opts : List String)
    (b : String) (sv : ℤ) (h : scanBest score opts = (some b, sv)) :
    b ∈ opts ∧ sv = score b ∧ ∀ u ∈ opts, score u ≤ sv := by
  obtain ⟨_, hbound, hlast⟩ := scanFold_spec score opts (none, 0)
  unfold scanBest at h
  rcases hlast with heq | ⟨b', hb', hres⟩
  · rw [h] at heq
    exact absurd (congrArg Prod.fst heq) (by simp)
  · rw [h] at hres
    obtain ⟨hfst, hsnd⟩ := Prod.mk.injEq _ _ _ _ ▸ hres
    obtain rfl : b = b' := by simpa using congrArg Prod.fst hres
    refine ⟨hb', by simpa using congrArg Prod.snd hres, ?_⟩
    intro u hu
    have := hbound u hu
    rw [h] at this
    exact this

/-- Claim C5, amended: the wrong-country rejection is decided by the
best-scoring candidate alone.  If some available candidate contains the
country *and* scores strictly higher than every available candidate not
containing the country, the resolver never returns
`WrongCountryRejected`; the mere presence of a country-matching
candidate does not suffice (see the counterexample). -/
theorem c5_amended (name : String) (options : List String) (t : String)
    (ht : t ∈ availableOptions options)
    (htc : pyIn (pyUpper (parseDestination name).country) (pyUpper t) = true)
    (hdom : ∀ u ∈ availableOptions options,
      pyIn (pyUpper (parseDestination name).country) (pyUpper u) = false →
      scoreOption (parseDestination name).city (parseDestination name).country
          (parseDestination name).region u <
        scoreOption (parseDestination name).city (parseDestination name).country
          (parseDestination name).region t) :
    select_destination name options ≠ Outcome.wrongCountryRejected := by
  intro hcontra
  unfold select_destination at hcontra
  by_cases h1 : (unavailableOptions options ≠ [] ∧ availableOptions options = [])
  · rw [if_pos h1] at hcontra
    exact Outcome.noConfusion hcontra
  · rw [if_neg h1] at hcontra
    by_cases h2 : availableOptions options = []
    · rw [if_pos h2] at hcontra
      exact Outcome.noConfusion hcontra
    · rw [if_neg h2] at hcontra
      cases hb1 : (scanBest
          (scoreOption (parseDestination name).city
            (parseDestination name).country (parseDestination name).region)
          (availableOptions options)).1 with
      | none =>
        rw [hb1] at hcontra
        exact Outcome.noConfusion hcontra
      | some b =>
        have hsb : scanBest
            (scoreOption (parseDestination name).city
              (parseDestination name).country (parseDestination name).region)
            (availableOptions options) =
            (some b, (scanBest
              (scoreOption (parseDestination name).city
                (parseDestination name).country (parseDestination name).region)
              (availableOptions options)).2) := by
          rw [← hb1]
        obtain ⟨hbmem, hbscore, hbbound⟩ := scanBest_some _ _ _ _ hsb
        rw [hb1] at hcontra
        replace hcontra :
            (if ((parseDestination name).country ≠ "" ∧
                (!pyIn (pyUpper (parseDestination name).country)
                  (pyUpper b)) = true) then
              Outcome.wrongCountryRejected
            else if verifySelection (parseDestination name).city
                (parseDestination name).region (parseDestination name).country
                b = true then
              Outcome.selectedOk b
            else Outcome.selectedWithMismatch b) =
              Outcome.wrongCountryRejected := hcontra
        by_cases h3 : ((parseDestination name).country ≠ "" ∧
            (!pyIn (pyUpper (parseDestination name).country) (pyUpper b)) = true)
        · have hbc : pyIn (pyUpper (parseDestination name).country)
              (pyUpper b) = false := by
            have h32 := h3.2
            revert h32
            cases pyIn (pyUpper (parseDestination name).country) (pyUpper b) <;>
              simp
          have hlt := hdom b hbmem hbc
          have hle := hbbound t ht
          rw [hbscore] at hle
          exact absurd hlt (not_lt_of_le hle)
        · rw [if_neg h3] at hcontra
          by_cases h4 : verifySelection (parseDestination name).city
              (parseDestination name).region (parseDestination name).country
              b = true
          · rw [if_pos h4] at hcontra
            exact Outcome.noConfusion hcontra
          · rw [if_neg h4] at hcontra
            exact Outcome.noConfusion hcontra

/-- Witness for the amended C5 at a concrete query and candidate set. -/
theorem c5_witness :
    select_destination "PARIS, FRANCE" ["LYON, GERMANY", "PARIS, FRANCE"] ≠
      Outcome.wrongCountryRejected :=
  c5_amended "PARIS, FRANCE" ["LYON, GERMANY", "PARIS, FRANCE"]
    "PARIS, FRANCE" (by decide) (by decide) (by decide)

/-! ### C7 — the region penalty dominates -/

/-- The tier cascade never exceeds the exact-match score. -/
theorem tierScore_le_1000 (city cn : String) (cp : List String)
    (ot onn : String) : tierScore city cn cp ot onn ≤ 1000 := by
  unfold tierScore
  split_ifs <;>
    norm_num [EXACT_MATCH_SCORE, NORMALIZED_MATCH_SCORE,
      ALL_PARTS_MATCH_SCORE, PARTIAL_MATCH_SCORE, FIRST_WORD_MATCH_SCORE,
      WEAK_MATCH_SCORE]

/-- When every city token occurs in the normalized label, the tier
cascade yields at least the out-of-order all-parts score 600. -/
theorem tierScore_ge_of_allparts (city cn : String) (cp : List String)
    (ot onn : String) (h : cp.all (fun part => pyIn part onn) = true) :
    600 ≤ tierScore city cn cp ot onn := by
  unfold tierScore
  rw [if_pos (show (cp.all (fun part => pyIn part onn)) = true from h)]
  split_ifs <;>
    norm_num [EXACT_MATCH_SCORE, NORMALIZED_MATCH_SCORE,
      ALL_PARTS_MATCH_SCORE, PARTIAL_MATCH_SCORE]

/-- The country bonus only ever adds to the tier score. -/
theorem withCountryScore_ge (city cn : String) (cp : List String)
    (country : String) (ot onn : String) :
    tierScore city cn cp ot onn ≤ withCountryScore city cn cp country ot onn := by
  unfold withCountryScore
  split_ifs <;> norm_num [COUNTRY_BONUS_SCORE]

/-- The country bonus adds at most 50. -/
theorem withCountryScore_le (city cn : String) (cp : List String)
    (country : String) (ot onn : String) :
    withCountryScore city cn cp country ot onn ≤
      tierScore city cn cp ot onn + 50 := by
  unfold withCountryScore
  split_ifs <;> norm_num [COUNTRY_BONUS_SCORE]

/-- Core of C7 at the scoring-function level: with a region supplied, a
label that takes the −500 different-region penalty (≥3 comma parts,
different ≤3-character middle code, special case not firing) scores
strictly below any label with a plain two-part form containing every
city token, whatever tiers either label hits. -/
theorem calc_region_penalty_lt (city cn : String) (cp : List String)
    (country reg : String) (hreg : reg ≠ "") (otA onnA otB onnB : String)
    (hA3 : 3 ≤ (optionPartsOf otA).length)
    (hAmid : pyStrip ((optionPartsOf otA).getD 1 "") ≠ pyUpper reg)
    (hAshort : (pyStrip ((optionPartsOf otA).getD 1 "")).length ≤ 3)
    (hAsp : specialCaseFires city country otA = false)
    (hB2 : (optionPartsOf otB).length = 2)
    (hBall : cp.all (fun part => pyIn part onnB) = true) :
    calculate_match_score city cn cp country (some reg) otA onnA <
      calculate_match_score city cn cp country (some reg) otB onnB := by
  have hrt : regionTruthy (some reg) = true := by
    simp [regionTruthy, hreg]
  have hBsp : specialCaseFires city country otB = false := by
    simp [specialCaseFires, hB2]
  have hBlen : ¬ (3:ℕ) ≤ (optionPartsOf otB).length := by
    rw [hB2]
    norm_num
  have htA := tierScore_le_1000 city cn cp otA onnA
  have htB := tierScore_ge_of_allparts city cn cp otB onnB hBall
  have hwA := withCountryScore_le city cn cp country otA onnA
  have hwB := withCountryScore_ge city cn cp country otB onnB
  unfold calculate_match_score
  rw [if_neg (show ¬ specialCaseFires city country otA = true by
        rw [hAsp]; simp),
      if_neg (show ¬ specialCaseFires city country otB = true by
        rw [hBsp]; simp)]
  unfold regionAdjusted
  simp only [Option.getD_some]
  rw [if_pos hrt, if_pos hrt, if_pos hA3, if_neg hBlen, if_neg hAmid,
    if_pos (show _ ∧ _ from ⟨hAmid, hAshort⟩)]
  omega

/-- Claim C7: with `region` supplied, a same-city candidate whose
≥3-comma-part middle part is a different ≤3-character region code (and
which therefore takes the −500 penalty — in particular the doubled-city
special case does not fire for it) always scores strictly below a
same-city candidate in plain two-part `"CITY, COUNTRY"` form, even when
the latter scores lower on the base tiers. -/
theorem c7_region_penalty_dominates (city country reg : String)
    (hreg : reg ≠ "") (A B : String)
    (hA3 : 3 ≤ (optionPartsOf (pyUpper A)).length)
    (hAmid : pyStrip ((optionPartsOf (pyUpper A)).getD 1 "") ≠ pyUpper reg)
    (hAshort : (pyStrip ((optionPartsOf (pyUpper A)).getD 1 "")).length ≤ 3)
    (hAsp : specialCaseFires city country (pyUpper A) = false)
    (hB2 : (optionPartsOf (pyUpper B)).length = 2)
    (hBcity : ∀ part ∈ pySplitWS (pyStrip (pyReplaceChar '-' ' ' (pyUpper city))),
      pyIn part (pyReplaceChar '-' ' ' (pyUpper B)) = true) :
    scoreOption city country (some reg) A < scoreOption city country (some reg) B := by
  unfold scoreOption
  exact calc_region_penalty_lt city _ _ country reg hreg _ _ _ _ hA3 hAmid
    hAshort hAsp hB2 (List.all_eq_true.mpr (fun part hp => hBcity part hp))

/-- Witness for C7: query "MUENSTER, NW, GERMANY"; "MUENSTER, BB,
GERMANY" (score 550) loses to "MUENSTER, GERMANY" (score 1050). -/
theorem c7_witness :
    scoreOption "MUENSTER" "GERMANY" (some "NW") "MUENSTER, BB, GERMANY" <
      scoreOption "MUENSTER" "GERMANY" (some "NW") "MUENSTER, GERMANY" :=
  c7_region_penalty_dominates "MUENSTER" "GERMANY" "NW" (by decide)
    "MUENSTER, BB, GERMANY" "MUENSTER, GERMANY" (by decide) (by decide)
    (by decide) (by decide) (by decide) (by decide)

/-! ### C3 / C4 — landfreight sub-option grouping -/

/-- Dropping as many rows as `takeWhile` keeps leaves `dropWhile`. -/
theorem drop_length_takeWhile {α : Type} (p : α → Bool) (l : List α) :
    l.drop (l.takeWhile p).length = l.dropWhile p := by
  induction l with
  | nil => rfl
  | cons a l ih =>
    by_cases hp : p a = true
    · simpa [List.takeWhile_cons, List.dropWhile_cons, hp] using ih
    · simp [List.takeWhile_cons, List.dropWhile_cons, hp]

/-- A positive skip counter consumes rows one by one: skipping `k` rows
is processing the suffix. -/
theorem processHapagRows_skip (rows : List HapagRow) :
    ∀ k : ℕ, processHapagRows k rows = processHapagRows 0 (rows.drop k) := by
  induction rows with
  | nil =>
    intro k
    cases k <;> rfl
  | cons r rest ih =>
    intro k
    cases k with
    | zero => rfl
    | succ n =>
      show processHapagRows n rest = processHapagRows 0 ((r :: rest).drop (n + 1))
      rw [List.drop_succ_cons]
      exact ih n

/-- Rows without the landfreight keyword never populate the
`destinationLandfreight` slot. -/
theorem processHapagRows_no_lf (rows : List HapagRow)
    (h : ∀ r ∈ rows, landfreightKw r.desc = false) :
    (processHapagRows 0 rows).destinationLandfreight = none := by
  induction rows with
  | nil => rfl
  | cons r rest ih =>
    have hr := h r (List.mem_cons_self r rest)
    have hrest : ∀ x ∈ rest, landfreightKw x.desc = false :=
      fun x hx => h x (List.mem_cons_of_mem r hx)
    rw [processHapagRows]
    by_cases ho : oceanKw r.desc = true
    · rw [if_pos ho]
      exact ih hrest
    · rw [if_neg ho, if_neg (by rw [hr]; simp)]
      by_cases hc : r.curr = ""
      · rw [if_neg (by simp [hc])]
        exact ih hrest
      · rw [if_pos (by simpa using hc)]
        exact ih hrest

/-- A block of keyword-free leaf rows (non-empty currency) contributes
exactly its rows, in order, to `otherCharges`, and nothing else. -/
theorem processHapagRows_leaves (subs post : List HapagRow)
    (h : ∀ r ∈ subs, oceanKw r.desc = false ∧ landfreightKw r.desc = false ∧
      r.curr ≠ "") :
    processHapagRows 0 (subs ++ post) =
      { oceanFreight := (processHapagRows 0 post).oceanFreight,
        destinationLandfreight :=
          (processHapagRows 0 post).destinationLandfreight,
        otherCharges :=
          subs.map mkItem ++ (processHapagRows 0 post).otherCharges } := by
  induction subs with
  | nil => rfl
  | cons r rest ih =>
    obtain ⟨ho, hl, hc⟩ := h r (List.mem_cons_self r rest)
    have hrest := fun x hx => h x (List.mem_cons_of_mem r hx)
    show processHapagRows 0 (r :: (rest ++ post)) = _
    rw [processHapagRows, if_neg (by rw [ho]; simp), if_neg (by rw [hl]; simp),
      if_pos hc, ih hrest]
    rfl

/-- Claim C4 (counterexample): a row directly below a landfreight group
header with an *empty* currency cell and the first word "combined" is,
per the claim, absorbed as a sub-option; the code instead breaks the
scan at the first empty-currency row, so no sub-option is formed (and
the row itself is then dropped as a stray header). -/
theorem c4_counterexample :
    (pyLower ((pySplitWS "Combined transport by truck").headD "") =
      "combined") ∧
    get_hapag_route_charges
      [{ desc := "Destination Landfreight", curr := "", v20 := "", v40 := "",
         v40hc := "" },
       { desc := "Combined transport by truck", curr := "", v20 := "100",
         v40 := "", v40hc := "120" }] =
    { oceanFreight := none,
      destinationLandfreight := some
        { description := "Destination Landfreight", curr := "",
          value20STD := "", value40STD := "", value40HC := "",
          subOptions := [] },
      otherCharges := [] } :=
  ⟨rfl, rfl⟩

/-- Characterization of a landfreight group: starting from a
landfreight header row with empty currency, exactly the maximal
`subOptionOK` prefix of the following rows is absorbed, and the group's
currency is backfilled from the last absorbed row. -/
theorem hapagGroupSpec (h : HapagRow) (rest : List HapagRow)
    (hlf : landfreightKw h.desc = true)
    (hoc : oceanKw h.desc = false)
    (hcur : h.curr = "")
    (hpost : ∀ r ∈ rest.dropWhile subOptionOK, landfreightKw r.desc = false) :
    ∃ item,
      (get_hapag_route_charges (h :: rest)).destinationLandfreight =
        some item ∧
      item.subOptions = (rest.takeWhile subOptionOK).map mkSubOption ∧
      item.curr =
        (match (rest.takeWhile subOptionOK).getLast? with
          | none => ""
          | some lr => if lr.curr ≠ "" then lr.curr else "") := by
  unfold get_hapag_route_charges
  rw [processHapagRows, if_neg (by rw [hoc]; simp),
    if_pos (by rw [hlf] : landfreightKw h.desc = true), if_pos hcur]
  have hres : (processHapagRows (rest.takeWhile subOptionOK).length
      rest).destinationLandfreight = none := by
    rw [processHapagRows_skip, drop_length_takeWhile]
    exact processHapagRows_no_lf _ hpost
  cases hlast : (rest.takeWhile subOptionOK).getLast? with
  | none =>
    have hnil : rest.takeWhile subOptionOK = [] :=
      List.getLast?_eq_none_iff.mp hlast
    refine ⟨mkItem h, ?_, ?_, ?_⟩
    · show ((processHapagRows (rest.takeWhile subOptionOK).length rest
          ).destinationLandfreight <|> _) = _
      rw [hres, hnil]
      rfl
    · rw [hnil]
      rfl
    · show (mkItem h).curr = ""
      show h.curr = ""
      exact hcur
  | some lr =>
    have hmapne : ¬ ((rest.takeWhile subOptionOK).map mkSubOption).isEmpty = true := by
      intro he
      rw [List.isEmpty_iff, List.map_eq_nil_iff] at he
      rw [he] at hlast
      exact Option.noConfusion hlast
    refine ⟨{
        description := h.desc,
        curr := if lr.curr ≠ "" then lr.curr else h.curr,
        value20STD := h.v20,
        value40STD := h.v40,
        value40HC := h.v40hc,
        subOptions := (rest.takeWhile subOptionOK).map mkSubOption },
      ?_, rfl, ?_⟩
    · show ((processHapagRows (rest.takeWhile subOptionOK).length rest
          ).destinationLandfreight <|> some _) = _
      rw [hres]
      show some (if ((rest.takeWhile subOptionOK).map mkSubOption).isEmpty = true
          then mkItem h else _) = _
      rw [if_neg hmapne, hlast]
      rfl
    · show (if lr.curr ≠ "" then lr.curr else h.curr) = _
      rw [hcur]

/-- Claim C4, amended: a following row is absorbed as a sub-option
exactly when its currency cell is *non-empty* AND its description's
first word is one of `{combined, between, from, <, >}` or contains a
semicolon (`subOptionOK`); the scan stops at the first row breaking the
pattern (`takeWhile`), and afterwards the group's currency — necessarily
empty on the header — is backfilled from the *last* absorbed
sub-option's currency. -/
theorem c4_amended (h : HapagRow) (rest : List HapagRow)
    (hlf : landfreightKw h.desc = true)
    (hoc : oceanKw h.desc = false)
    (hcur : h.curr = "")
    (hpost : ∀ r ∈ rest.dropWhile subOptionOK, landfreightKw r.desc = false) :
    ∃ item,
      (get_hapag_route_charges (h :: rest)).destinationLandfreight =
        some item ∧
      item.subOptions = (rest.takeWhile subOptionOK).map mkSubOption ∧
      item.curr =
        (match (rest.takeWhile subOptionOK).getLast? with
          | none => ""
          | some lr => if lr.curr ≠ "" then lr.curr else "") :=
  hapagGroupSpec h rest hlf hoc hcur hpost

/-- Witness for the amended C4: one qualifying sub-option row with
currency "EUR", then a breaking row (empty currency). -/
theorem c4_witness :
    ∃ item,
      (get_hapag_route_charges
        [{ desc := "Destination Landfreight", curr := "", v20 := "",
           v40 := "", v40hc := "" },
         { desc := "Combined transport by truck", curr := "EUR",
           v20 := "100", v40 := "", v40hc := "" },
         { desc := "Port Additional", curr := "", v20 := "", v40 := "",
           v40hc := "" }]).destinationLandfreight = some item ∧
      item.subOptions =
        (List.takeWhile subOptionOK
          [{ desc := "Combined transport by truck", curr := "EUR",
             v20 := "100", v40 := "", v40hc := "" },
           { desc := "Port Additional", curr := "", v20 := "", v40 := "",
             v40hc := "" }]).map mkSubOption ∧
      item.curr =
        (match (List.takeWhile subOptionOK
          [{ desc := "Combined transport by truck", curr := "EUR",
             v20 := "100", v40 := "", v40hc := "" },
           { desc := "Port Additional", curr := "", v20 := "", v40 := "",
             v40hc := "" }]).getLast? with
          | none => ""
          | some lr => if lr.curr ≠ "" then lr.curr else "") :=
  c4_amended _ _ (by decide) (by decide) (by decide) (by decide)

/-- Splitting at a known good prefix: `takeWhile` keeps exactly `l1` and
`dropWhile` leaves exactly `l2` when everything in `l1` satisfies `p`
and `l2` is empty or starts with a failing element. -/
theorem takeWhile_dropWhile_append {α : Type} (p : α → Bool) (l1 l2 : List α)
    (h1 : ∀ r ∈ l1, p r = true)
    (h2 : l2 = [] ∨ ∃ a as, l2 = a :: as ∧ p a = false) :
    (l1 ++ l2).takeWhile p = l1 ∧ (l1 ++ l2).dropWhile p = l2 := by
  induction l1 with
  | nil =>
    rcases h2 with rfl | ⟨a, as, rfl, hpa⟩
    · exact ⟨rfl, rfl⟩
    · simp [List.takeWhile_cons, List.dropWhile_cons, hpa]
  | cons r l1' ih =>
    have hr := h1 r (List.mem_cons_self r l1')
    obtain ⟨iht, ihd⟩ := ih (fun x hx => h1 x (List.mem_cons_of_mem r hx))
    constructor
    · show List.takeWhile p (r :: (l1' ++ l2)) = r :: l1'
      rw [List.takeWhile_cons, hr]
      simp [iht]
    · show List.dropWhile p (r :: (l1' ++ l2)) = l2
      rw [List.dropWhile_cons, hr]
      simpa using ihd

/-- A `subOptionOK` row has a non-empty currency cell. -/
theorem subOptionOK_curr_ne {r : HapagRow} (h : subOptionOK r = true) :
    r.curr ≠ "" := by
  unfold subOptionOK at h
  exact of_decide_eq_true (Bool.and_elim_left h)

/-- Claim C3 (counterexample): two rows that satisfy the claim's
sub-option shape (non-empty currency, first word "combined") but whose
descriptions contain the word "landfreight".  With no group header
present the claim demands two independent leaf charge records; the code
instead routes both rows into the single `destinationLandfreight` slot
(the second overwriting the first), and `otherCharges` stays empty. -/
theorem c3_counterexample :
    (subOptionOK { desc := "Combined landfreight option A", curr := "EUR",
                   v20 := "10", v40 := "", v40hc := "" } = true) ∧
    (subOptionOK { desc := "Combined landfreight option B", curr := "EUR",
                   v20 := "20", v40 := "", v40hc := "" } = true) ∧
    (get_hapag_route_charges
      [{ desc := "Combined landfreight option A", curr := "EUR",
         v20 := "10", v40 := "", v40hc := "" },
       { desc := "Combined landfreight option B", curr := "EUR",
         v20 := "20", v40 := "", v40hc := "" }]).otherCharges = [] ∧
    (get_hapag_route_charges
      [{ desc := "Combined landfreight option A", curr := "EUR",
         v20 := "10", v40 := "", v40hc := "" },
       { desc := "Combined landfreight option B", curr := "EUR",
         v20 := "20", v40 := "", v40hc := "" }]).destinationLandfreight =
      some (mkItem
        { desc := "Combined landfreight option B", curr := "EUR",
          v20 := "20", v40 := "", v40hc := "" }) :=
  ⟨rfl, rfl, rfl, rfl⟩

/-- Claim C3, amended: for a grid starting with a Destination
Landfreight header row (empty currency) followed by N rows that satisfy
the sub-option pattern (non-empty currency, allowed first word or
semicolon) *and are free of the landfreight / ocean-freight keywords*,
followed by rows that break the pattern and contain no landfreight
keyword: exactly one landfreight record is produced, with `subOptions`
of length N; for the same grid with the header row removed, no
sub-option group is formed and the N rows are emitted as N independent
leaf charge records at the head of `otherCharges`. -/
theorem c3_amended (h : HapagRow) (subs post : List HapagRow)
    (hlf : landfreightKw h.desc = true)
    (hoc : oceanKw h.desc = false)
    (hcur : h.curr = "")
    (hsubs : ∀ r ∈ subs, subOptionOK r = true ∧ oceanKw r.desc = false ∧
      landfreightKw r.desc = false)
    (hbreak : post = [] ∨ ∃ p ps, post = p :: ps ∧ subOptionOK p = false)
    (hpostlf : ∀ r ∈ post, landfreightKw r.desc = false) :
    (∃ item,
      (get_hapag_route_charges (h :: (subs ++ post))).destinationLandfreight =
        some item ∧
      item.subOptions = subs.map mkSubOption ∧
      item.subOptions.length = subs.length) ∧
    (get_hapag_route_charges (subs ++ post)).destinationLandfreight = none ∧
    (get_hapag_route_charges (subs ++ post)).otherCharges =
      subs.map mkItem ++ (get_hapag_route_charges post).otherCharges := by
  obtain ⟨htw, hdw⟩ := takeWhile_dropWhile_append subOptionOK subs post
    (fun r hr => (hsubs r hr).1) hbreak
  refine ⟨?_, ?_, ?_⟩
  · obtain ⟨item, hdlf, hsub, hcu⟩ := hapagGroupSpec h (subs ++ post) hlf hoc
      hcur (by rw [hdw]; exact hpostlf)
    refine ⟨item, hdlf, ?_, ?_⟩
    · rw [hsub, htw]
    · rw [hsub, htw, List.length_map]
  · show (processHapagRows 0 (subs ++ post)).destinationLandfreight = none
    rw [processHapagRows_leaves subs post (fun r hr =>
      ⟨(hsubs r hr).2.1, (hsubs r hr).2.2, subOptionOK_curr_ne (hsubs r hr).1⟩)]
    exact processHapagRows_no_lf post hpostlf
  · show (processHapagRows 0 (subs ++ post)).otherCharges = _
    rw [processHapagRows_leaves subs post (fun r hr =>
      ⟨(hsubs r hr).2.1, (hsubs r hr).2.2, subOptionOK_curr_ne (hsubs r hr).1⟩)]
    rfl

/-- Witness for the amended C3 with N = 2 sub-option rows and one
breaking row. -/
theorem c3_witness :
    (∃ item,
      (get_hapag_route_charges
        [{ desc := "Destination Landfreight", curr := "", v20 := "",
           v40 := "", v40hc := "" },
         { desc := "Combined transport by truck", curr := "EUR",
           v20 := "100", v40 := "", v40hc := "120" },
         { desc := "between Hamburg; by rail", curr := "USD", v20 := "90",
           v40 := "95", v40hc := "" },
         { desc := "Wharfage", curr := "USD", v20 := "5", v40 := "7",
           v40hc := "9" }]).destinationLandfreight = some item ∧
      item.subOptions =
        [{ desc := "Combined transport by truck", curr := "EUR",
           v20 := "100", v40 := "", v40hc := "120" },
         { desc := "between Hamburg; by rail", curr := "USD", v20 := "90",
           v40 := "95", v40hc := "" }].map mkSubOption ∧
      item.subOptions.length = 2) ∧
    (get_hapag_route_charges
      [{ desc := "Combined transport by truck", curr := "EUR",
         v20 := "100", v40 := "", v40hc := "120" },
       { desc := "between Hamburg; by rail", curr := "USD", v20 := "90",
         v40 := "95", v40hc := "" },
       { desc := "Wharfage", curr := "USD", v20 := "5", v40 := "7",
         v40hc := "9" }]).destinationLandfreight = none ∧
    (get_hapag_route_charges
      [{ desc := "Combined transport by truck", curr := "EUR",
         v20 := "100", v40 := "", v40hc := "120" },
       { desc := "between Hamburg; by rail", curr := "USD", v20 := "90",
         v40 := "95", v40hc := "" },
       { desc := "Wharfage", curr := "USD", v20 := "5", v40 := "7",
         v40hc := "9" }]).otherCharges =
      [{ desc := "Combined transport by truck", curr := "EUR",
         v20 := "100", v40 := "", v40hc := "120" },
       { desc := "between Hamburg; by rail", curr := "USD", v20 := "90",
         v40 := "95", v40hc := "" }].map mkItem ++
      (get_hapag_route_charges
        [{ desc := "Wharfage", curr := "USD", v20 := "5", v40 := "7",
           v40hc := "9" }]).otherCharges :=
  c3_amended
    { desc := "Destination Landfreight", curr := "", v20 := "", v40 := "",
      v40hc := "" }
    [{ desc := "Combined transport by truck", curr := "EUR", v20 := "100",
       v40 := "", v40hc := "120" },
     { desc := "between Hamburg; by rail", curr := "USD", v20 := "90",
       v40 := "95", v40hc := "" }]
    [{ desc := "Wharfage", curr := "USD", v20 := "5", v40 := "7",
       v40hc := "9" }]
    (by decide) (by decide) (by decide) (by decide)
    (Or.inr ⟨_, _, rfl, by decide⟩) (by decide)

/-! ### C9 / C10 — surcharge extraction and the 20STD fallback -/

/-- What a successfully extracted row guarantees: non-structural
description, the table-global 20STD flag, container values drawn from
the discovered container columns, and at least three cells. -/
theorem extractRowData_fields {hIdx cIdx : Option ℕ}
    {cols : List (ℕ × String)} {i : ℕ} {row : List String}
    {rec : SurchargeRecord}
    (h : extractRowData hIdx cIdx cols i row = some rec) :
    rec.description ∉ skipLabels ∧
    rec.has20stdColumn = cols.any (fun q => q.2 = "20STD") ∧
    rec.containerValues = (cols.filter (fun q => q.1 < row.length)).map
      (fun q => (q.2, pyNorm (row.getD q.1 ""))) ∧
    3 ≤ row.length := by
  unfold extractRowData at h
  by_cases h1 : hIdx = some i
  · rw [if_pos h1] at h
    exact Option.noConfusion h
  · rw [if_neg h1] at h
    by_cases h2 : row.length < 3
    · rw [if_pos h2] at h
      exact Option.noConfusion h
    · rw [if_neg h2] at h
      by_cases h3 : (split_first_cell (row.getD 0 "")).1 ∈ skipLabels
      · rw [if_pos h3] at h
        exact Option.noConfusion h
      · rw [if_neg h3] at h
        injection h with h'
        subst h'
        exact ⟨h3, rfl, rfl, by omega⟩

/-- When no discovered container column is labelled `20STD`, a record's
container dictionary has no `20STD` key. -/
theorem dictGet_20std_eq_empty {cols : List (ℕ × String)} {row : List String}
    (hany : cols.any (fun q => q.2 = "20STD") = false) :
    dictGet ((cols.filter (fun q => q.1 < row.length)).map
      (fun q => (q.2, pyNorm (row.getD q.1 "")))) "20STD" = "" := by
  have hall : ∀ q ∈ cols, ¬ (q.2 = "20STD") := by
    intro q hq hqe
    have : cols.any (fun q => q.2 = "20STD") = true :=
      List.any_eq_true.mpr ⟨q, hq, by simp [hqe]⟩
    rw [this] at hany
    exact Bool.noConfusion hany
  unfold dictGet
  rw [List.find?_eq_none.mpr ?_]
  · rfl
  · intro x hx
    rw [List.mem_reverse] at hx
    obtain ⟨q, hq, rfl⟩ := List.mem_map.mp hx
    simpa using hall q (List.mem_of_mem_filter hq)

/-- Claim C9: when the extracted table has no `20STD` header column
anywhere, every exported record's 20STD value equals its 40STD value;
when the table does have a `20STD` column, the exported 20STD value is
the record's own (possibly empty) `20STD` entry, with no
substitution. -/
theorem c9_20std_fallback (grid : List (List String)) :
    ((containerColumnsOf (headerInfo grid).1).any
        (fun q => q.2 = "20STD") = false →
      ∀ rec ∈ extract_import_surcharges_table grid,
        (save_to_excel_amounts rec).val20std =
          (save_to_excel_amounts rec).val40std) ∧
    ((containerColumnsOf (headerInfo grid).1).any
        (fun q => q.2 = "20STD") = true →
      ∀ rec ∈ extract_import_surcharges_table grid,
        (save_to_excel_amounts rec).val20std =
          dictGet rec.containerValues "20STD") := by
  constructor
  · intro hany rec hrec
    obtain ⟨p, hp, hsome⟩ := List.mem_filterMap.mp hrec
    obtain ⟨-, h20, hcv, -⟩ := extractRowData_fields hsome
    rw [hany] at h20
    simp only [save_to_excel_amounts]
    rw [h20]
    simp only [Bool.not_false, Bool.true_and]
    by_cases h40 : dictGet rec.containerValues "40STD" = ""
    · rw [if_neg (by simp [h40])]
      rw [hcv, dictGet_20std_eq_empty hany, ← hcv, h40]
    · rw [if_pos (by simp [h40])]
  · intro hany rec hrec
    obtain ⟨p, hp, hsome⟩ := List.mem_filterMap.mp hrec
    obtain ⟨-, h20, -, -⟩ := extractRowData_fields hsome
    rw [hany] at h20
    simp only [save_to_excel_amounts]
    rw [h20]
    simp

/-- Witness for C9: a table with no 20STD column; the exported 20STD
value of its one charge record equals the 40STD value. -/
theorem c9_witness :
    ((containerColumnsOf (headerInfo
        [["Description", "Curr.", "40STD", "40HC"],
         ["Ocean Freight", "USD", "120", "140"]]).1).any
      (fun q => q.2 = "20STD") = false) ∧
    ((save_to_excel_amounts
        { description := "Ocean Freight", curr := "USD",
          containerValues := [("40STD", "120"), ("40HC", "140")],
          remarks := "", has20stdColumn := false }).val20std =
      (save_to_excel_amounts
        { description := "Ocean Freight", curr := "USD",
          containerValues := [("40STD", "120"), ("40HC", "140")],
          remarks := "", has20stdColumn := false }).val40std) :=
  ⟨by decide,
    (c9_20std_fallback
      [["Description", "Curr.", "40STD", "40HC"],
       ["Ocean Freight", "USD", "120", "140"]]).1 (by decide)
      { description := "Ocean Freight", curr := "USD",
        containerValues := [("40STD", "120"), ("40HC", "140")],
        remarks := "", has20stdColumn := false } (by decide)⟩

/-- Index bookkeeping for the header scan: a found header row is at
offset `i - k` in the remaining grid and has at least three cells. -/
theorem findHeaderAux_min_cells (g : List (List String)) :
    ∀ (k : ℕ) (m : List String) (i : ℕ),
      findHeaderAux k g = some (m, i) →
      k ≤ i ∧ 3 ≤ (g.getD (i - k) []).length := by
  induction g with
  | nil =>
    intro k m i h
    exact Option.noConfusion h
  | cons row rest ih =>
    intro k m i h
    rw [findHeaderAux] at h
    by_cases h20 : 20 ≤ k
    · rw [if_pos h20] at h
      exact Option.noConfusion h
    · rw [if_neg h20] at h
      by_cases hlen : row.length < 3
      · rw [if_pos hlen] at h
        obtain ⟨hki, hrec⟩ := ih (k + 1) m i h
        refine ⟨by omega, ?_⟩
        have : i - k = (i - (k + 1)) + 1 := by omega
        rw [this]
        simpa using hrec
      · rw [if_neg hlen] at h
        by_cases hcur : (row.map pyNorm).any
            (fun t => decide (t = "Curr.") || decide (t = "Currency")) = true
        · rw [if_pos hcur] at h
          injection h with h'
          obtain ⟨-, rfl⟩ := Prod.mk.injEq _ _ _ _ ▸ h'
          refine ⟨le_refl _, ?_⟩
          simpa using (by omega : 3 ≤ row.length)
        · rw [if_neg hcur] at h
          obtain ⟨hki, hrec⟩ := ih (k + 1) m i h
          refine ⟨by omega, ?_⟩
          have : i - k = (i - (k + 1)) + 1 := by omega
          rw [this]
          simpa using hrec

/-- Claim C10: every record emitted by the extractor has a non-empty,
non-structural description and comes from a row with at least three
cells; a row with fewer than three cells never yields a record and is
never chosen as the header row, even if it contains "Curr." or a
non-empty description. -/
theorem c10_row_filtering (grid : List (List String)) :
    (∀ rec ∈ extract_import_surcharges_table grid,
      rec.description ≠ "" ∧ rec.description ∉ skipLabels) ∧
    (∀ (hIdx cIdx : Option ℕ) (cols : List (ℕ × String)) (i : ℕ)
        (row : List String), row.length < 3 →
      extractRowData hIdx cIdx cols i row = none) ∧
    (∀ (m : List String) (i : ℕ), findHeaderAux 0 grid = some (m, i) →
      3 ≤ (grid.getD i []).length) := by
  refine ⟨?_, ?_, ?_⟩
  · intro rec hrec
    obtain ⟨p, hp, hsome⟩ := List.mem_filterMap.mp hrec
    obtain ⟨hskip, -, -, -⟩ := extractRowData_fields hsome
    refine ⟨?_, hskip⟩
    intro he
    exact hskip (by rw [he]; decide)
  · intro hIdx cIdx cols i row hlen
    unfold extractRowData
    by_cases h1 : hIdx = some i
    · rw [if_pos h1]
    · rw [if_neg h1, if_pos hlen]
  · intro m i h
    have := findHeaderAux_min_cells grid 0 m i h
    simpa using this.2

/-- Witness for C10: a 2-cell row containing "Curr." is skipped both as
header (the header is found later, at index 1) and as data. -/
theorem c10_witness :
    (extractRowData none none [] 0 ["Curr.", "x"] = none) ∧
    (3 ≤ ([["Curr.", "x"],
           ["Description", "Curr.", "40STD"],
           ["Wharfage", "USD", "9"]].getD 1 []).length) ∧
    (∀ rec ∈ extract_import_surcharges_table
        [["Curr.", "x"],
         ["Description", "Curr.", "40STD"],
         ["Wharfage", "USD", "9"]],
      rec.description ≠ "" ∧ rec.description ∉ skipLabels) :=
  ⟨(c10_row_filtering
      [["Curr.", "x"], ["Description", "Curr.", "40STD"],
       ["Wharfage", "USD", "9"]]).2.1 none none [] 0 ["Curr.", "x"]
      (by decide),
   (c10_row_filtering
      [["Curr.", "x"], ["Description", "Curr.", "40STD"],
       ["Wharfage", "USD", "9"]]).2.2
      ["Description", "Curr.", "40STD"] 1 (by rfl),
   (c10_row_filtering
      [["Curr.", "x"], ["Description", "Curr.", "40STD"],
       ["Wharfage", "USD", "9"]]).1⟩

/-! ### C1 — dense cost ranks, amended -/

/-- What the 4-column sort order means inside one group: for rows with
equal destination and container type and present total rates, the order
is (total rate, then POD). -/
theorem rowLe_parts {a b : TotalRow} (hle : rowLe a b)
    (hd : a.destination = b.destination)
    (hct : a.containerType = b.containerType)
    (ha : a.totalRate.isSome = true) (hb : b.totalRate.isSome = true) :
    a.totalRate.getD 0 < b.totalRate.getD 0 ∨
      (a.totalRate.getD 0 = b.totalRate.getD 0 ∧ a.pod.data ≤ b.pod.data) := by
  obtain ⟨va, hva⟩ := Option.isSome_iff_exists.mp ha
  obtain ⟨vb, hvb⟩ := Option.isSome_iff_exists.mp hb
  unfold rowLe rowKey at hle
  rw [hd, hct, hva, hvb] at hle
  simp only [Option.isNone_some, Option.getD_some] at hle
  rw [hva, hvb]
  simp only [Option.getD_some]
  rcases (Prod.Lex.le_iff _ _).mp hle with h1 | ⟨-, hle2⟩
  · exact absurd h1 (lt_irrefl _)
  rcases (Prod.Lex.le_iff _ _).mp hle2 with h2 | ⟨-, hle3⟩
  · exact absurd h2 (lt_irrefl _)
  rcases (Prod.Lex.le_iff _ _).mp hle3 with h3 | ⟨heq, hpod⟩
  · rcases (Prod.Lex.lt_iff _ _).mp h3 with h4 | ⟨-, h5⟩
    · exact absurd h4 (lt_irrefl _)
    · exact Or.inl h5
  · refine Or.inr ⟨?_, hpod⟩
    have := congrArg (fun x => (ofLex x).2) heq
    simpa using this

/-- Counting strictly smaller keys in a strictly increasing list
recovers the index. -/
theorem countP_lt_of_pairwise {β κ : Type} [LinearOrder κ] (f : β → κ) :
    ∀ (L : List β), L.Pairwise (fun p q => f p < f q) →
      ∀ (k : ℕ) (hk : k < L.length),
        L.countP (fun q => decide (f q < f (L.get ⟨k, hk⟩))) = k := by
  intro L
  induction L with
  | nil =>
    intro _ k hk
    exact absurd hk (by simp)
  | cons x L' ih =>
    intro hpw k hk
    obtain ⟨hx, hL'⟩ := List.pairwise_cons.mp hpw
    cases k with
    | zero =>
      apply List.countP_eq_zero.mpr
      intro a ha
      rcases List.mem_cons.mp ha with rfl | ha'
      · simpa using lt_irrefl (f a)
      · simpa using not_lt_of_lt (hx a ha')
    | succ n =>
      have hn : n < L'.length := by simpa using hk
      have hget : (x :: L').get ⟨n + 1, hk⟩ = L'.get ⟨n, hn⟩ := rfl
      rw [hget, List.countP_cons_of_pos _ _ (by
        simpa using hx (L'.get ⟨n, hn⟩) (L'.get_mem _ _)), ih hL' n hn]

/-- The second component of an enumeration entry is a list member. -/
theorem snd_mem_of_mem_enum {α : Type} {p : ℕ × α} {l : List α}
    (h : p ∈ l.enum) : p.2 ∈ l := by
  have : (l.enum.map Prod.snd) = l := List.enum_map_snd l
  rw [← this]
  exact List.mem_map_of_mem Prod.snd h

/-- Enumerating a sorted frame gives pairwise (row order, index order). -/
theorem enum_pairwise_of_sorted {s : List TotalRow} (hsorted : s.Sorted rowLe) :
    s.enum.Pairwise (fun p q => rowLe p.2 q.2 ∧ p.1 < q.1) := by
  apply List.pairwise_iff_get.mpr
  intro i j hij
  rw [List.get_enum, List.get_enum]
  exact ⟨hsorted.rel_get_of_lt hij, hij⟩

/-- Within one `(destination, containerType)` group of a sorted frame
with present total rates, the `(Total Rate, position)` keys are strictly
increasing. -/
theorem group_pairwise (s : List TotalRow) (hsorted : s.Sorted rowLe)
    (hsome : ∀ r ∈ s, r.containerType.isSome = true ∧ r.totalRate.isSome = true)
    (d c : String) :
    (s.enum.filter (fun q => decide (q.2.destination = d) &&
      decide (q.2.containerType = some c))).Pairwise
      (fun p q => pairKey p < pairKey q) := by
  refine ((enum_pairwise_of_sorted hsorted).filter _).imp_of_mem ?_
  intro p q hp hq hpq
  obtain ⟨hpe, hpP⟩ := List.mem_filter.mp hp
  obtain ⟨hqe, hqP⟩ := List.mem_filter.mp hq
  obtain ⟨hpd, hpc⟩ := Bool.and_eq_true_iff.mp hpP
  obtain ⟨hqd, hqc⟩ := Bool.and_eq_true_iff.mp hqP
  have hpd' : p.2.destination = d := of_decide_eq_true hpd
  have hpc' : p.2.containerType = some c := of_decide_eq_true hpc
  have hqd' : q.2.destination = d := of_decide_eq_true hqd
  have hqc' : q.2.containerType = some c := of_decide_eq_true hqc
  have hptr : p.2.totalRate.isSome = true :=
    (hsome p.2 (snd_mem_of_mem_enum hpe)).2
  have hqtr : q.2.totalRate.isSome = true :=
    (hsome q.2 (snd_mem_of_mem_enum hqe)).2
  rcases rowLe_parts hpq.1 (hpd'.trans hqd'.symm) (hpc'.trans hqc'.symm)
      hptr hqtr with hlt | ⟨heq, -⟩
  · exact (Prod.Lex.lt_iff _ _).mpr (Or.inl hlt)
  · exact (Prod.Lex.lt_iff _ _).mpr (Or.inr ⟨heq, hpq.2⟩)

/-- The rank a group member receives is one plus its ordinal position in
the group. -/
theorem rank_eq_one_add_index (s : List TotalRow) (hsorted : s.Sorted rowLe)
    (hsome : ∀ r ∈ s, r.containerType.isSome = true ∧ r.totalRate.isSome = true)
    (d c : String) (k : ℕ)
    (hk : k < (s.enum.filter (fun q => decide (q.2.destination = d) &&
      decide (q.2.containerType = some c))).length) :
    rankOfAt s
      ((s.enum.filter (fun q => decide (q.2.destination = d) &&
        decide (q.2.containerType = some c))).get ⟨k, hk⟩).1
      ((s.enum.filter (fun q => decide (q.2.destination = d) &&
        decide (q.2.containerType = some c))).get ⟨k, hk⟩).2 = 1 + k := by
  have hmem := List.get_mem (s.enum.filter (fun q =>
    decide (q.2.destination = d) && decide (q.2.containerType = some c)))
    k hk
  obtain ⟨-, hP⟩ := List.mem_filter.mp hmem
  obtain ⟨hd, hc⟩ := Bool.and_eq_true_iff.mp hP
  have hd' := of_decide_eq_true hd
  have hc' := of_decide_eq_true hc
  unfold rankOfAt
  have hconv : s.enum.countP (fun q => sameGroup q.2
      ((s.enum.filter (fun q => decide (q.2.destination = d) &&
        decide (q.2.containerType = some c))).get ⟨k, hk⟩).2 &&
      decide (pairKey q < pairKey
        (((s.enum.filter (fun q => decide (q.2.destination = d) &&
          decide (q.2.containerType = some c))).get ⟨k, hk⟩).1,
         ((s.enum.filter (fun q => decide (q.2.destination = d) &&
          decide (q.2.containerType = some c))).get ⟨k, hk⟩).2))) =
      (s.enum.filter (fun q => decide (q.2.destination = d) &&
        decide (q.2.containerType = some c))).countP
        (fun q => decide (pairKey q < pairKey
          ((s.enum.filter (fun q => decide (q.2.destination = d) &&
            decide (q.2.containerType = some c))).get ⟨k, hk⟩))) := by
    rw [List.countP_filter]
    apply List.countP_congr
    intro x hx
    unfold sameGroup
    rw [hd', hc']
    constructor
    · intro hh
      obtain ⟨h1, h2⟩ := Bool.and_eq_true_iff.mp hh
      exact Bool.and_eq_true_iff.mpr ⟨h2, h1⟩
    · intro hh
      obtain ⟨h1, h2⟩ := Bool.and_eq_true_iff.mp hh
      exact Bool.and_eq_true_iff.mpr ⟨h2, h1⟩
  rw [hconv, countP_lt_of_pairwise pairKey _ (group_pairwise s hsorted hsome d c) k hk]

/-- Filtering the ranked output to one group is mapping the ranking
function over the group's enumerated rows. -/
theorem rankedRows_filter (s : List TotalRow) (d c : String) :
    (rankedRows s).filter (fun r => decide (r.destination = d) &&
      decide (r.containerType = some c)) =
    (s.enum.filter (fun q => decide (q.2.destination = d) &&
      decide (q.2.containerType = some c))).map (rankifyRow s) := by
  unfold rankedRows
  rw [List.filter_map]
  rfl

/-- Dense ranks: inside each group of the ranked output, the cost ranks
read off in order are exactly `1, 2, ..., K`. -/
theorem rankedRows_group_ranks (s : List TotalRow) (hsorted : s.Sorted rowLe)
    (hsome : ∀ r ∈ s, r.containerType.isSome = true ∧ r.totalRate.isSome = true)
    (d c : String) :
    ((rankedRows s).filter (fun r => decide (r.destination = d) &&
      decide (r.containerType = some c))).map (fun r => r.costRank) =
    List.range' 1 (((rankedRows s).filter (fun r => decide (r.destination = d) &&
      decide (r.containerType = some c))).length) := by
  rw [rankedRows_filter, List.map_map, List.length_map]
  apply List.ext_get
  · rw [List.length_map, List.length_range']
  · intro n h1 h2
    have hn : n < (s.enum.filter (fun q => decide (q.2.destination = d) &&
        decide (q.2.containerType = some c))).length := by
      simpa using h1
    have hrank := rank_eq_one_add_index s hsorted hsome d c n hn
    rw [List.get_map]
    have hr' : (List.range' 1 (s.enum.filter (fun q =>
        decide (q.2.destination = d) &&
        decide (q.2.containerType = some c))).length).get ⟨n, h2⟩ = 1 + n := by
      rw [List.get_range']
      omega
    rw [hr']
    exact hrank

/-- The ranked output row at a position is the ranking function applied
to the corresponding enumerated input row. -/
theorem rankedRows_getElem (s : List TotalRow) (i : ℕ)
    (hi : i < (rankedRows s).length) (hi' : i < s.length) :
    (rankedRows s)[i] = rankifyRow s (i, s[i]) := by
  simp [rankedRows]

/-- Ties on `Total Rate` inside a group are ranked in `POD` order: the
row with the smaller `POD` name gets the strictly smaller rank. -/
theorem rankedRows_tie_order (s : List TotalRow) (hsorted : s.Sorted rowLe)
    (hsome : ∀ r ∈ s, r.containerType.isSome = true ∧ r.totalRate.isSome = true)
    (i j : ℕ) (hi : i < (rankedRows s).length) (hj : j < (rankedRows s).length)
    (hd : (rankedRows s)[i].destination = (rankedRows s)[j].destination)
    (hct : (rankedRows s)[i].containerType = (rankedRows s)[j].containerType)
    (htr : (rankedRows s)[i].totalRate = (rankedRows s)[j].totalRate)
    (hpod : (rankedRows s)[i].pod.data < (rankedRows s)[j].pod.data) :
    (rankedRows s)[i].costRank < (rankedRows s)[j].costRank := by
  have hi' : i < s.length := by simpa [rankedRows] using hi
  have hj' : j < s.length := by simpa [rankedRows] using hj
  rw [rankedRows_getElem s i hi hi', rankedRows_getElem s j hj hj']
    at hd hct htr hpod ⊢
  simp only [rankifyRow] at hd hct htr hpod ⊢
  have hmi : s[i] ∈ s := List.getElem_mem hi'
  have hmj : s[j] ∈ s := List.getElem_mem hj'
  have hij : i < j := by
    rcases Nat.lt_trichotomy i j with h | h | h
    · exact h
    · exfalso
      subst h
      exact lt_irrefl _ hpod
    · exfalso
      have hle : rowLe s[j] s[i] :=
        hsorted.rel_get_of_lt (show (⟨j, hj'⟩ : Fin s.length) < ⟨i, hi'⟩ from h)
      rcases rowLe_parts hle hd.symm hct.symm (hsome _ hmj).2 (hsome _ hmi).2
        with hlt | ⟨heq, hpl⟩
      · rw [htr] at hlt
        exact lt_irrefl _ hlt
      · exact lt_irrefl _ (lt_of_le_of_lt hpl hpod)
  obtain ⟨c, hc⟩ := Option.isSome_iff_exists.mp (hsome s[i] hmi).1
  have hei : (i, s[i]) ∈ s.enum :=
    List.mk_mem_enum_iff_getElem?.mpr (List.getElem?_eq_getElem hi')
  have hej : (j, s[j]) ∈ s.enum :=
    List.mk_mem_enum_iff_getElem?.mpr (List.getElem?_eq_getElem hj')
  have hfi : (i, s[i]) ∈ s.enum.filter (fun q =>
      decide (q.2.destination = s[i].destination) &&
      decide (q.2.containerType = some c)) :=
    List.mem_filter.mpr ⟨hei, by simp [hc]⟩
  have hfj : (j, s[j]) ∈ s.enum.filter (fun q =>
      decide (q.2.destination = s[i].destination) &&
      decide (q.2.containerType = some c)) :=
    List.mem_filter.mpr ⟨hej, by simp [← hd, ← hct, hc]⟩
  obtain ⟨⟨ki, hki⟩, hgki⟩ := List.mem_iff_get.mp hfi
  obtain ⟨⟨kj, hkj⟩, hgkj⟩ := List.mem_iff_get.mp hfj
  have hLfst : (s.enum.filter (fun q =>
      decide (q.2.destination = s[i].destination) &&
      decide (q.2.containerType = some c))).Pairwise (fun p q => p.1 < q.1) :=
    ((enum_pairwise_of_sorted hsorted).filter _).imp (fun h => h.2)
  have hkij : ki < kj := by
    rcases Nat.lt_trichotomy ki kj with h | h | h
    · exact h
    · exfalso
      subst h
      have hpair : ((i, s[i]) : ℕ × TotalRow) = (j, s[j]) :=
        hgki.symm.trans hgkj
      have h1 : i = j := congrArg Prod.fst hpair
      omega
    · exfalso
      have h2 := List.pairwise_iff_get.mp hLfst ⟨kj, hkj⟩ ⟨ki, hki⟩ h
      rw [hgki, hgkj] at h2
      have h3 : j < i := h2
      omega
  have hri := rank_eq_one_add_index s hsorted hsome s[i].destination c ki hki
  rw [hgki] at hri
  have hrj := rank_eq_one_add_index s hsorted hsome s[i].destination c kj hkj
  rw [hgkj] at hrj
  have hri' : rankOfAt s i s[i] = 1 + ki := hri
  have hrj' : rankOfAt s j s[j] = 1 + kj := hrj
  calc rankOfAt s i s[i] = 1 + ki := hri'
    _ < 1 + kj := by omega
    _ = rankOfAt s j s[j] := hrj'.symm

/-- Claim C1 (amended): on every input table whose rows all carry a
present `Container Type & Size` and a present numeric `Total Rate`,
`add_cost_ranking` succeeds, and in the sorted output every
`(Destination, Container Type & Size)` group of `K` rows receives the
cost ranks `1, ..., K` exactly — dense, gap-free and duplicate-free —
with total-rate ties broken by `POD` name. On tables with any missing
value the step raises instead (see the counterexample), so the
claim's unrestricted universal quantification fails. -/
theorem c1_amended (rows : List TotalRow)
    (hsome : ∀ r ∈ rows,
      r.containerType.isSome = true ∧ r.totalRate.isSome = true) :
    ∃ out : List RankedRow, add_cost_ranking rows = Except.ok out ∧
      (∀ d c, (out.filter (fun r => decide (r.destination = d) &&
          decide (r.containerType = some c))).map (fun r => r.costRank) =
        List.range' 1 ((out.filter (fun r => decide (r.destination = d) &&
          decide (r.containerType = some c))).length)) ∧
      (∀ i j (hi : i < out.length) (hj : j < out.length),
        out[i].destination = out[j].destination →
        out[i].containerType = out[j].containerType →
        out[i].totalRate = out[j].totalRate →
        out[i].pod.data < out[j].pod.data →
        out[i].costRank < out[j].costRank) := by
  set s := List.insertionSort rowLe rows with hs
  have hsome' : ∀ r ∈ s,
      r.containerType.isSome = true ∧ r.totalRate.isSome = true :=
    fun r hr => hsome r ((List.perm_insertionSort rowLe rows).mem_iff.mp hr)
  have hsorted : s.Sorted rowLe := List.sorted_insertionSort rowLe rows
  have hguard : s.any (fun r =>
      r.containerType.isNone || r.totalRate.isNone) = false := by
    rw [List.any_eq_false]
    intro r hr
    obtain ⟨h1, h2⟩ := hsome' r hr
    obtain ⟨v, hv⟩ := Option.isSome_iff_exists.mp h1
    obtain ⟨w, hw⟩ := Option.isSome_iff_exists.mp h2
    simp [hv, hw]
  refine ⟨rankedRows s, ?_, ?_, ?_⟩
  · simp only [add_cost_ranking]
    rw [← hs, hguard]
    rfl
  · intro d c
    exact rankedRows_group_ranks s hsorted hsome' d c
  · intro i j hi hj hd hct htr hpod
    exact rankedRows_tie_order s hsorted hsome' i j hi hj hd hct htr hpod

/-- Concrete instantiation: the three fully matched rows satisfy the
presence hypothesis and hence get dense, POD-tie-broken ranks. -/
theorem c1_witness :
    (∀ r ∈ c1Rows,
      r.containerType.isSome = true ∧ r.totalRate.isSome = true) ∧
    (∃ out : List RankedRow, add_cost_ranking c1Rows = Except.ok out ∧
      (∀ d c, (out.filter (fun r => decide (r.destination = d) &&
          decide (r.containerType = some c))).map (fun r => r.costRank) =
        List.range' 1 ((out.filter (fun r => decide (r.destination = d) &&
          decide (r.containerType = some c))).length)) ∧
      (∀ i j (hi : i < out.length) (hj : j < out.length),
        out[i].destination = out[j].destination →
        out[i].containerType = out[j].containerType →
        out[i].totalRate = out[j].totalRate →
        out[i].pod.data < out[j].pod.data →
        out[i].costRank < out[j].costRank)) :=
  ⟨by decide, c1_amended c1Rows (by decide)⟩
